import Mathlib

/-!
Verification of the fastapi-postgres-template backend.

Shallow embedding of the repository code (services, repositories, pagination
helpers, exception handlers) as executable Lean definitions, followed by
theorems settling the frozen specification claims.  Database tables are
modelled as lists of rows, request-scoped calls as pure state-passing
functions, Python exceptions as Except errors, and delegated third-party
primitives (bcrypt, pyotp) as function parameters.
-/

/-- HTTP error carrying a status code and a detail message, modelling
fastapi HTTPException instances raised by the code. -/
structure HttpError where
  status_code : Nat
  detail : String
deriving DecidableEq, Repr

/- ===================== Pagination (app/commons/pagination.py) ============ -/

/-- PaginationParams from app/commons/pagination.py: page and page_size are
Python ints, so they are embedded as Int. -/
structure PaginationParams where
  page : Int
  page_size : Int
deriving DecidableEq, Repr

/-- The skip property of PaginationParams: (page - 1) * page_size. -/
def PaginationParams.skip (p : PaginationParams) : Int :=
  (p.page - 1) * p.page_size

/-- PageInfo from app/commons/pagination.py. -/
structure PageInfo where
  total : Int
  page : Int
  page_size : Int
  pages : Int
  has_next : Bool
  has_previous : Bool
deriving DecidableEq, Repr

/-- PaginatedResponse.create from app/commons/pagination.py, restricted to the
page_info it builds.  Python floor division is Int.fdiv. -/
def paginatedResponseCreate (total : Int) (params : PaginationParams) : PageInfo :=
  let pages := Int.fdiv (total + params.page_size - 1) params.page_size
  { total := total
    page := params.page
    page_size := params.page_size
    pages := pages
    has_next := decide (params.page < pages)
    has_previous := decide (params.page > 1) }

/- ===================== RBAC data model and permission checker ============ -/

/-- Permission row (app/api/authorization/models/permission.py), restricted to
the columns the permission resolution reads. -/
structure Permission where
  id : Nat
  code : String
deriving DecidableEq, Repr

/-- RolePermission link row (app/api/authorization/models/role_permission.py). -/
structure RolePermission where
  role_id : Nat
  permission_id : Nat
deriving DecidableEq, Repr

/-- UserRole link row (app/api/users/models/user_role.py). -/
structure UserRole where
  user_id : Nat
  role_id : Nat
deriving DecidableEq, Repr

/-- The three tables read by get_user_permissions_query. -/
structure AuthDb where
  permissions : List Permission
  role_permissions : List RolePermission
  user_roles : List UserRole
deriving Repr

/-- get_user_permissions_query from
app/api/authorization/repositories/permission_queries.py: select Permission
join RolePermission on RolePermission.permission_id = Permission.id
join UserRole on UserRole.role_id = RolePermission.role_id
where UserRole.user_id = user_id.  The result is the join multiset of
permission rows. -/
def get_user_permissions_query (db : AuthDb) (user_id : Nat) : List Permission :=
  db.permissions.flatMap fun p =>
    db.role_permissions.flatMap fun rp =>
      db.user_roles.filterMap fun ur =>
        if rp.permission_id = p.id ∧ ur.role_id = rp.role_id ∧ ur.user_id = user_id
        then some p else none

/-- PermissionRepository.get_user_permissions
(app/api/authorization/repositories/permission.py): executes the join query
and deduplicates the scalars with unique(). -/
def get_user_permissions (db : AuthDb) (user_id : Nat) : List Permission :=
  (get_user_permissions_query db user_id).dedup

/-- PermissionChecker call (app/commons/dependencies/permissions.py):
collects the codes of the user permissions and requires the set of required
permission codes to be a subset; otherwise HTTP 403 with detail
derived from the source. -/
def permissionCheckerCall (required_permissions : List String) (db : AuthDb)
    (user_id : Nat) : Except HttpError Unit :=
  let user_permission_codes := (get_user_permissions db user_id).map (·.code)
  if required_permissions.all fun c => user_permission_codes.contains c then
    .ok ()
  else
    .error ⟨403, "Not enough permissions"⟩

/-- A permission is reachable from a user through UserRole to RolePermission
to Permission, exactly as claim C1 words it. -/
def ReachablePermission (db : AuthDb) (user_id : Nat) (p : Permission) : Prop :=
  p ∈ db.permissions ∧
    ∃ rp ∈ db.role_permissions, rp.permission_id = p.id ∧
      ∃ ur ∈ db.user_roles, ur.role_id = rp.role_id ∧ ur.user_id = user_id

/-- Membership in the join query result coincides with reachability through
UserRole to RolePermission to Permission. -/
theorem mem_get_user_permissions_query {db : AuthDb} {uid : Nat} {p : Permission} :
    p ∈ get_user_permissions_query db uid ↔ ReachablePermission db uid p := by
  simp only [get_user_permissions_query, List.mem_flatMap, List.mem_filterMap,
    Option.ite_none_right_eq_some, Option.some.injEq, ReachablePermission]
  constructor
  · rintro ⟨q, hq, rp, hrp, ur, hur, ⟨h1, h2, h3⟩, rfl⟩
    exact ⟨hq, rp, hrp, h1, ur, hur, h2, h3⟩
  · rintro ⟨hp, rp, hrp, h1, ur, hur, h2, h3⟩
    exact ⟨p, hp, rp, hrp, ur, hur, ⟨h1, h2, h3⟩, rfl⟩

/-- The checker condition, phrased through reachability. -/
theorem checker_condition_iff (db : AuthDb) (uid : Nat)
    (required : List String) :
    (required.all fun c =>
        ((get_user_permissions db uid).map (·.code)).contains c) = true ↔
      ∀ c ∈ required, ∃ p, ReachablePermission db uid p ∧ p.code = c := by
  rw [List.all_eq_true]
  constructor
  · intro h c hc
    have hmem : c ∈ (get_user_permissions db uid).map (·.code) := by
      simpa [List.contains] using h c hc
    rcases List.mem_map.mp hmem with ⟨p, hp, hpc⟩
    exact ⟨p, mem_get_user_permissions_query.mp (List.mem_dedup.mp hp), hpc⟩
  · intro hall c hc
    rcases hall c hc with ⟨p, hreach, hpc⟩
    have hp : p ∈ get_user_permissions db uid :=
      List.mem_dedup.mpr (mem_get_user_permissions_query.mpr hreach)
    simpa [List.contains] using List.mem_map.mpr ⟨p, hp, hpc⟩

/-- Claim C1: PermissionChecker grants access exactly when every required
permission code is the code of some permission reachable from the user through
UserRole to RolePermission to Permission, and otherwise returns HTTP 403. -/
theorem c1_permission_checker_join (db : AuthDb) (uid : Nat)
    (required : List String) :
    (permissionCheckerCall required db uid = Except.ok () ↔
      ∀ c ∈ required, ∃ p, ReachablePermission db uid p ∧ p.code = c) ∧
    (permissionCheckerCall required db uid = Except.ok () ∨
      permissionCheckerCall required db uid =
        Except.error ⟨403, "Not enough permissions"⟩) := by
  simp only [permissionCheckerCall]
  by_cases hb : (required.all fun c =>
      ((get_user_permissions db uid).map (·.code)).contains c) = true
  · rw [if_pos hb]
    exact ⟨iff_of_true rfl ((checker_condition_iff db uid required).mp hb),
      Or.inl rfl⟩
  · rw [if_neg hb]
    refine ⟨?_, Or.inr rfl⟩
    apply iff_of_false
    · exact fun h => Except.noConfusion h
    · exact fun hall => hb ((checker_condition_iff db uid required).mpr hall)

/-- Reachability over concrete finite tables is decidable, so witnesses can be
checked by evaluation. -/
instance (db : AuthDb) (uid : Nat) (p : Permission) :
    Decidable (ReachablePermission db uid p) := by
  unfold ReachablePermission
  exact inferInstance

/-- Sample RBAC database: user 1 has role 7, role 7 carries permission 3 with
code users.read; permission 4 with code users.write is attached to no role of
user 1. -/
def exampleAuthDb : AuthDb :=
  { permissions := [⟨3, "users.read"⟩, ⟨4, "users.write"⟩]
    role_permissions := [⟨7, 3⟩, ⟨8, 4⟩]
    user_roles := [⟨1, 7⟩] }

/-- Witness for claim C1 at a concrete database: the reachable code is
granted and the unreachable one yields HTTP 403. -/
theorem c1_permission_checker_join_witness :
    permissionCheckerCall ["users.read"] exampleAuthDb 1 = Except.ok () ∧
      permissionCheckerCall ["users.write"] exampleAuthDb 1 =
        Except.error ⟨403, "Not enough permissions"⟩ := by
  constructor
  · apply (c1_permission_checker_join exampleAuthDb 1 ["users.read"]).1.mpr
    intro c hc
    have hc2 : c = "users.read" := by simpa using hc
    subst hc2
    exact ⟨⟨3, "users.read"⟩, by decide, rfl⟩
  · rcases (c1_permission_checker_join exampleAuthDb 1 ["users.write"]).2 with h | h
    · exfalso
      have hall := (c1_permission_checker_join exampleAuthDb 1
        ["users.write"]).1.mp h
      rcases hall "users.write" (by simp) with ⟨p, hre, hcode⟩
      have hpmem := hre.1
      have hrest := hre.2
      simp only [exampleAuthDb, List.mem_cons, List.not_mem_nil, or_false]
        at hpmem
      rcases hpmem with rfl | rfl
      · exact absurd hcode (by decide)
      · exact absurd hrest (by decide)
    · exact h

/-- Claim C7: offset pagination metadata.  Under nonnegative total and
positive page size, pages is the ceiling of total over page_size, has_next
holds exactly when page < pages, has_previous exactly when page > 1, and skip
is (page - 1) * page_size. -/
theorem c7_offset_pagination_metadata (total : Int) (params : PaginationParams)
    (_htotal : 0 ≤ total) (_hpage : 1 ≤ params.page)
    (hsize : 1 ≤ params.page_size) :
    (paginatedResponseCreate total params).pages =
      ⌈(total : ℚ) / (params.page_size : ℚ)⌉ ∧
    ((paginatedResponseCreate total params).has_next = true ↔
      params.page < (paginatedResponseCreate total params).pages) ∧
    ((paginatedResponseCreate total params).has_previous = true ↔
      params.page > 1) ∧
    params.skip = (params.page - 1) * params.page_size := by
  have hs : (0 : Int) < params.page_size := hsize
  have hsq : (0 : ℚ) < (params.page_size : ℚ) := by exact_mod_cast hs
  refine ⟨?_, ?_, ?_, rfl⟩
  · show (total + params.page_size - 1).fdiv params.page_size = _
    set t := total
    set s := params.page_size
    set z := (t + s - 1).fdiv s with hz
    have hmod : s * z + (t + s - 1).fmod s = t + s - 1 := Int.fdiv_add_fmod _ _
    have hr0 : 0 ≤ (t + s - 1).fmod s := Int.fmod_nonneg' _ hs
    have hr1 : (t + s - 1).fmod s < s := Int.fmod_lt_of_pos _ hs
    have hle : t ≤ s * z := by omega
    have hlt : s * z - s < t := by omega
    symm
    rw [Int.ceil_eq_iff]
    constructor
    · rw [lt_div_iff₀ hsq]
      have hlt2 : (s : ℚ) * (z : ℚ) - s < t := by exact_mod_cast hlt
      calc ((z : ℚ) - 1) * s = s * z - s := by ring
        _ < t := hlt2
    · rw [div_le_iff₀ hsq]
      have hle2 : (t : ℚ) ≤ (s : ℚ) * (z : ℚ) := by exact_mod_cast hle
      calc (t : ℚ) ≤ s * z := hle2
        _ = z * s := by ring
  · simp [paginatedResponseCreate]
  · simp [paginatedResponseCreate]

/-- Witness for claim C7: total 5, page 2, page_size 2 gives pages 3,
has_next true, has_previous true, skip 2. -/
theorem c7_offset_pagination_metadata_witness :
    (paginatedResponseCreate 5 ⟨2, 2⟩).pages = ⌈(5 : ℚ) / (2 : ℚ)⌉ ∧
      ((paginatedResponseCreate 5 ⟨2, 2⟩).has_next = true ↔
        (2 : Int) < (paginatedResponseCreate 5 ⟨2, 2⟩).pages) ∧
      ((paginatedResponseCreate 5 ⟨2, 2⟩).has_previous = true ↔
        (2 : Int) > 1) ∧
      PaginationParams.skip ⟨2, 2⟩ = (2 - 1) * 2 :=
  c7_offset_pagination_metadata 5 ⟨2, 2⟩ (by decide) (by decide) (by decide)

/- ===================== Authentication service (auth.py) ================== -/

/-- User row (app/api/users/models/user.py) restricted to the columns the
authentication service reads; password holds the bcrypt hash. -/
structure AuthUser where
  id : Nat
  email : String
  password : String
deriving DecidableEq, Repr

/-- AuthService.authenticate_user from
app/api/authentication/services/auth.py.  The bcrypt verification
pwd_context.verify is delegated to the passlib library and therefore taken as
the function parameter verify_password. -/
def authenticate_user (verify_password : String → String → Bool)
    (users : List AuthUser) (email password : String) :
    Except HttpError AuthUser :=
  match users.find? (fun u => u.email == email) with
  | none => .error ⟨401, "Invalid email or password"⟩
  | some user =>
    if verify_password password user.password then .ok user
    else .error ⟨401, "Invalid email or password"⟩

/-- Redis keyspace state: an association list from keys to string values,
matching the decode_responses=True client of app/configs/cache.py. -/
abbrev RedisState := List (String × String)

/-- Value lookup in the Redis model. -/
def redis_get (st : RedisState) (k : String) : Option String :=
  (st.find? (fun kv => kv.1 == k)).map (·.2)

/-- Key deletion in the Redis model. -/
def redis_delete (st : RedisState) (k : String) : RedisState :=
  st.filter (fun kv => kv.1 != k)

/-- Key update in the Redis model: set overwrites any previous value. -/
def redis_set (st : RedisState) (k v : String) : RedisState :=
  (k, v) :: redis_delete st k

/-- AuthService.cache_password_reset_otp: stores the OTP under the key
password_reset:email (the 600 second expiry is not part of the claims). -/
def cache_password_reset_otp (st : RedisState) (email otp : String) :
    RedisState :=
  redis_set st ("password_reset:" ++ email) otp

/-- State touched by request_password_reset: the Redis keyspace and the
outbox of emails sent, as (recipient, otp) pairs. -/
structure ResetState where
  redis : RedisState
  sent_emails : List (String × String)
deriving DecidableEq, Repr

/-- AuthService.request_password_reset: when no user matches the email the
function returns with no state change; otherwise it caches the OTP (supplied
here as a parameter standing for the random generate_otp output) and sends
the reset email. -/
def request_password_reset (users : List AuthUser) (st : ResetState)
    (email otp : String) : ResetState :=
  match users.find? (fun u => u.email == email) with
  | none => st
  | some _ =>
    { redis := cache_password_reset_otp st.redis email otp
      sent_emails := st.sent_emails ++ [(email, otp)] }

/-- AuthService.verify_password_reset_otp: reads the stored OTP; the Python
truthiness test of stored_otp makes the empty string fail; on a match the key
is deleted and True returned, else the keyspace is unchanged. -/
def verify_password_reset_otp (st : RedisState) (email otp : String) :
    Bool × RedisState :=
  let key := "password_reset:" ++ email
  match redis_get st key with
  | some stored =>
    if stored ≠ "" ∧ stored = otp then (true, redis_delete st key)
    else (false, st)
  | none => (false, st)

/-- AuthService.reset_password: verifies the OTP (HTTP 400 on failure), looks
the user up (HTTP 400 on a missing user), then replaces the stored password
hash.  The bcrypt hash of passlib is the function parameter hash_password.
The result carries the Python exception outcome together with the final
Redis and users state. -/
def reset_password (hash_password : String → String) (st : RedisState)
    (users : List AuthUser) (email otp new_password : String) :
    Except HttpError Unit × RedisState × List AuthUser :=
  match verify_password_reset_otp st email otp with
  | (false, st2) => (.error ⟨400, "Invalid or expired OTP"⟩, st2, users)
  | (true, st2) =>
    match users.find? (fun u => u.email == email) with
    | none => (.error ⟨400, "Invalid email"⟩, st2, users)
    | some user =>
      (.ok (), st2, users.map fun u =>
        if u.id = user.id then { u with password := hash_password new_password }
        else u)

/-- Claim C8: both authentication failure branches raise the identical
HTTP 401 with detail Invalid email or password, and a password reset request
for an unknown email returns normally with the state unchanged. -/
theorem c8_credential_failure_indistinguishable
    (verify_password : String → String → Bool) (users : List AuthUser)
    (email password : String) (st : ResetState) (otp : String) :
    (users.find? (fun u => u.email == email) = none →
      authenticate_user verify_password users email password =
        Except.error ⟨401, "Invalid email or password"⟩) ∧
    (∀ user, users.find? (fun u => u.email == email) = some user →
      verify_password password user.password = false →
      authenticate_user verify_password users email password =
        Except.error ⟨401, "Invalid email or password"⟩) ∧
    (users.find? (fun u => u.email == email) = none →
      request_password_reset users st email otp = st) := by
  refine ⟨fun h => ?_, fun user h hv => ?_, fun h => ?_⟩
  · simp [authenticate_user, h]
  · simp [authenticate_user, h, hv]
  · simp [request_password_reset, h]

/-- Witness for claim C8: one registered user; an unknown email and a wrong
password produce the same 401 error, and the reset request for the unknown
email leaves the state untouched. -/
theorem c8_credential_failure_indistinguishable_witness :
    authenticate_user (fun a b => a == b) [⟨1, "a@x.io", "hash"⟩]
        "b@x.io" "pw" = Except.error ⟨401, "Invalid email or password"⟩ ∧
      authenticate_user (fun a b => a == b) [⟨1, "a@x.io", "hash"⟩]
        "a@x.io" "pw" = Except.error ⟨401, "Invalid email or password"⟩ ∧
      request_password_reset [⟨1, "a@x.io", "hash"⟩] ⟨[], []⟩ "b@x.io" "123456"
        = ⟨[], []⟩ := by
  refine ⟨?_, ?_, ?_⟩
  · exact (c8_credential_failure_indistinguishable (fun a b => a == b)
      [⟨1, "a@x.io", "hash"⟩] "b@x.io" "pw" ⟨[], []⟩ "123456").1 (by decide)
  · exact (c8_credential_failure_indistinguishable (fun a b => a == b)
      [⟨1, "a@x.io", "hash"⟩] "a@x.io" "pw" ⟨[], []⟩ "123456").2.1
      ⟨1, "a@x.io", "hash"⟩ (by decide) (by decide)
  · exact (c8_credential_failure_indistinguishable (fun a b => a == b)
      [⟨1, "a@x.io", "hash"⟩] "b@x.io" "pw" ⟨[], []⟩ "123456").2.2 (by decide)

/- ============ Two factor authentication (services/two_factor.py) ========= -/

/-- TwoFactorAuth row (app/api/authentication/models/two_fa.py).  The
backup_codes column stores json.dumps of a list of strings and every reader
applies json.loads before use, so the column is embedded as the list itself. -/
structure TwoFactorAuth where
  user_id : Nat
  secret_key : String
  backup_codes : List String
  is_enabled : Bool
deriving DecidableEq, Repr

/-- TwoFactorAuthService.setup_2fa, restricted to the stored record: a fresh
secret and fresh backup codes are supplied (parameters standing for the
random pyotp generators); an existing record is overwritten in place and a
missing one created, in both branches with is_enabled False. -/
def setup_2fa (existing : Option TwoFactorAuth) (user_id : Nat)
    (secret_key : String) (backup_codes : List String) : TwoFactorAuth :=
  match existing with
  | some two_factor =>
    { two_factor with
        secret_key := secret_key
        backup_codes := backup_codes
        is_enabled := false }
  | none =>
    { user_id := user_id
      secret_key := secret_key
      backup_codes := backup_codes
      is_enabled := false }

/-- TwoFactorAuthService.enable_2fa: missing record gives HTTP 400, a failed
TOTP check gives HTTP 400, otherwise the record is enabled.  TOTP
verification is delegated to pyotp and is the parameter verify_totp. -/
def enable_2fa (verify_totp : String → String → Bool)
    (existing : Option TwoFactorAuth) (totp_code : String) :
    Except HttpError TwoFactorAuth :=
  match existing with
  | none => .error ⟨400, "2FA not set up"⟩
  | some two_factor =>
    if verify_totp two_factor.secret_key totp_code then
      .ok { two_factor with is_enabled := true }
    else .error ⟨400, "Invalid TOTP code"⟩

/-- TwoFactorAuthService.disable_2fa: requires an enabled record (HTTP 400),
a correct password (HTTP 401, bcrypt delegated as verify_password), then a
TOTP code valid against the stored secret, falling back to membership in the
stored backup codes; a used backup code is removed with list.remove, which
drops its first occurrence (List.erase); a code that is neither gives
HTTP 400 before any mutation.  The Python code also stamps last-used
datetimes, which no claim reads. -/
def disable_2fa (verify_totp verify_password : String → String → Bool)
    (existing : Option TwoFactorAuth) (user_password : String)
    (password totp_code : String) : Except HttpError TwoFactorAuth :=
  match existing with
  | none => .error ⟨400, "2FA not enabled"⟩
  | some two_factor =>
    if two_factor.is_enabled = false then .error ⟨400, "2FA not enabled"⟩
    else if verify_password password user_password = false then
      .error ⟨401, "Invalid password"⟩
    else if verify_totp two_factor.secret_key totp_code then
      .ok { two_factor with is_enabled := false }
    else if two_factor.backup_codes.contains totp_code then
      .ok { two_factor with
              backup_codes := two_factor.backup_codes.erase totp_code
              is_enabled := false }
    else .error ⟨400, "Invalid TOTP code"⟩

/-- Claim C9: after setup_2fa the stored record always has is_enabled False,
in the overwrite branch as well as the create branch, and enable_2fa refuses
to activate it while the TOTP check fails. -/
theorem c9_setup_2fa_disabled (existing : Option TwoFactorAuth)
    (user_id : Nat) (secret_key : String) (backup_codes : List String)
    (verify_totp : String → String → Bool) :
    (setup_2fa existing user_id secret_key backup_codes).is_enabled = false ∧
    (∀ totp_code, verify_totp secret_key totp_code = false →
      enable_2fa verify_totp
          (some (setup_2fa existing user_id secret_key backup_codes))
          totp_code = Except.error ⟨400, "Invalid TOTP code"⟩) := by
  have hsec : (setup_2fa existing user_id secret_key backup_codes).secret_key
      = secret_key := by
    cases existing <;> rfl
  have hdis : (setup_2fa existing user_id secret_key backup_codes).is_enabled
      = false := by
    cases existing <;> rfl
  refine ⟨hdis, fun totp_code hv => ?_⟩
  simp [enable_2fa, hsec, hv]

/-- Witness for claim C9: overwriting an enabled record leaves it disabled
and a wrong code cannot enable it. -/
theorem c9_setup_2fa_disabled_witness :
    (setup_2fa (some ⟨1, "OLD", ["X"], true⟩) 1 "NEW" ["Y"]).is_enabled
        = false ∧
      enable_2fa (fun _ c => c == "111111")
          (some (setup_2fa (some ⟨1, "OLD", ["X"], true⟩) 1 "NEW" ["Y"]))
          "222222" = Except.error ⟨400, "Invalid TOTP code"⟩ := by
  have h := c9_setup_2fa_disabled (some ⟨1, "OLD", ["X"], true⟩) 1 "NEW" ["Y"]
    (fun _ c => c == "111111")
  exact ⟨h.1, h.2 "222222" (by decide)⟩

/-- Claim C2: with 2FA enabled and the password correct, disable_2fa accepts
a code exactly when it passes TOTP verification or belongs to the stored
backup codes; an accepted backup code is consumed (removed from the stored
list, hence never accepted again once the codes are distinct); a code that is
neither yields HTTP 400 with the stored list untouched. -/
theorem c2_disable_2fa_backup_consumption
    (verify_totp verify_password : String → String → Bool)
    (tf : TwoFactorAuth) (user_password password totp_code : String)
    (hen : tf.is_enabled = true)
    (hpw : verify_password password user_password = true) :
    ((∃ tf2, disable_2fa verify_totp verify_password (some tf) user_password
        password totp_code = Except.ok tf2) ↔
      (verify_totp tf.secret_key totp_code = true ∨
        totp_code ∈ tf.backup_codes)) ∧
    (verify_totp tf.secret_key totp_code = false →
      totp_code ∈ tf.backup_codes →
      disable_2fa verify_totp verify_password (some tf) user_password
          password totp_code =
        Except.ok { tf with
          backup_codes := tf.backup_codes.erase totp_code
          is_enabled := false } ∧
      (tf.backup_codes.Nodup → totp_code ∉ tf.backup_codes.erase totp_code)) ∧
    (verify_totp tf.secret_key totp_code = false →
      totp_code ∉ tf.backup_codes →
      disable_2fa verify_totp verify_password (some tf) user_password
          password totp_code = Except.error ⟨400, "Invalid TOTP code"⟩) ∧
    (tf.backup_codes.Nodup →
      ∀ tf3 : TwoFactorAuth,
        tf3.backup_codes = tf.backup_codes.erase totp_code →
        verify_totp tf3.secret_key totp_code = false →
        ∀ password2 user_password2 tf4,
          disable_2fa verify_totp verify_password (some tf3) user_password2
            password2 totp_code ≠ Except.ok tf4) := by
  refine ⟨?_, fun hv hmem => ⟨?_, fun hnd => hnd.not_mem_erase⟩,
    fun hv hmem => ?_, fun hnd tf3 hb3 hv3 password2 user_password2 tf4 => ?_⟩
  · by_cases hv : verify_totp tf.secret_key totp_code = true
    · simp [disable_2fa, hen, hpw, hv]
    · by_cases hmem : totp_code ∈ tf.backup_codes
      · simp [disable_2fa, hen, hpw, hv, hmem]
      · simp [disable_2fa, hen, hpw, hv, hmem]
  · simp [disable_2fa, hen, hpw, hv, hmem]
  · simp [disable_2fa, hen, hpw, hv, hmem]
  · intro hok
    have hnomem : totp_code ∉ tf3.backup_codes := by
      rw [hb3]; exact hnd.not_mem_erase
    by_cases hen3 : tf3.is_enabled = false
    · simp [disable_2fa, hen3] at hok
    · by_cases hpw3 : verify_password password2 user_password2 = false
      · simp [disable_2fa, hen3, hpw3] at hok
      · simp [disable_2fa, hen3, hpw3, hv3, hnomem] at hok

/-- Witness for claim C2 at concrete data: record with backup codes AAAA and
BBBB, a TOTP verifier accepting only 111111, the submitted code AAAA. -/
theorem c2_disable_2fa_backup_consumption_witness :
    (∃ tf2, disable_2fa (fun _ c => c == "111111") (fun a b => a == b)
        (some ⟨1, "SEC", ["AAAA", "BBBB"], true⟩) "pw" "pw" "AAAA" =
          Except.ok tf2) ∧
      disable_2fa (fun _ c => c == "111111") (fun a b => a == b)
          (some ⟨1, "SEC", ["AAAA", "BBBB"], true⟩) "pw" "pw" "AAAA" =
        Except.ok ⟨1, "SEC", ["BBBB"], false⟩ ∧
      disable_2fa (fun _ c => c == "111111") (fun a b => a == b)
          (some ⟨1, "SEC", ["BBBB"], true⟩) "pw" "pw" "AAAA" ≠
        Except.ok ⟨1, "SEC", [], false⟩ := by
  have h := c2_disable_2fa_backup_consumption (fun _ c => c == "111111")
    (fun a b => a == b) ⟨1, "SEC", ["AAAA", "BBBB"], true⟩ "pw" "pw" "AAAA"
    rfl rfl
  refine ⟨h.1.mpr (Or.inr (by decide)), ?_, ?_⟩
  · exact (h.2.1 (by decide) (by decide)).1
  · exact h.2.2.2 (by decide) ⟨1, "SEC", ["BBBB"], true⟩ rfl (by decide)
      "pw" "pw" ⟨1, "SEC", [], false⟩

/-- Deleting a Redis key makes a subsequent read of that key miss. -/
theorem redis_get_delete (st : RedisState) (k : String) :
    redis_get (redis_delete st k) k = none := by
  have hfind : (redis_delete st k).find? (fun kv => kv.1 == k) = none := by
    apply List.find?_eq_none.mpr
    intro kv hkv
    have hmem := (List.mem_filter.mp hkv).2
    simpa using hmem
  simp [redis_get, hfind]

/-- Claim C10: verify_password_reset_otp returns True only when the stored
OTP equals the submitted one, deletes the key on success so an immediate
second verification of the same pair fails, and a failed verification makes
reset_password return HTTP 400 with Redis and users unchanged. -/
theorem c10_password_reset_otp_single_use (st : RedisState)
    (users : List AuthUser) (email otp : String)
    (hash_password : String → String) (new_password : String) :
    ((verify_password_reset_otp st email otp).1 = true →
      redis_get st ("password_reset:" ++ email) = some otp ∧
      (verify_password_reset_otp
          (verify_password_reset_otp st email otp).2 email otp).1 = false) ∧
    ((verify_password_reset_otp st email otp).1 = false →
      reset_password hash_password st users email otp new_password =
        (Except.error ⟨400, "Invalid or expired OTP"⟩, st, users)) := by
  constructor
  · intro htrue
    rcases hget : redis_get st ("password_reset:" ++ email) with _ | stored
    · exfalso
      simp [verify_password_reset_otp, hget] at htrue
    · by_cases hcond : stored ≠ "" ∧ stored = otp
      · rcases hcond with ⟨hne, rfl⟩
        refine ⟨rfl, ?_⟩
        simp [verify_password_reset_otp, hget, hne, redis_get_delete]
      · exfalso
        simp [verify_password_reset_otp, hget, hcond] at htrue
  · intro hfalse
    have hpair : verify_password_reset_otp st email otp = (false, st) := by
      rcases hget : redis_get st ("password_reset:" ++ email) with _ | stored
      · simp [verify_password_reset_otp, hget]
      · by_cases hcond : stored ≠ "" ∧ stored = otp
        · rcases hcond with ⟨hne, rfl⟩
          exfalso
          simp [verify_password_reset_otp, hget, hne] at hfalse
        · simp only [verify_password_reset_otp, hget]
          rw [if_neg hcond]
    simp [reset_password, hpair]

/-- Witness for claim C10: a stored OTP 123456 for mail a@x.io verifies once,
fails the second time, and a wrong OTP leaves everything unchanged with
HTTP 400. -/
theorem c10_password_reset_otp_single_use_witness :
    ((verify_password_reset_otp [("password_reset:a@x.io", "123456")] "a@x.io"
        "123456").1 = true →
      redis_get [("password_reset:a@x.io", "123456")]
          ("password_reset:" ++ "a@x.io") = some "123456" ∧
      (verify_password_reset_otp
          (verify_password_reset_otp [("password_reset:a@x.io", "123456")]
            "a@x.io" "123456").2 "a@x.io" "123456").1 = false) ∧
    ((verify_password_reset_otp [("password_reset:a@x.io", "123456")] "a@x.io"
        "999999").1 = false →
      reset_password (fun p => p) [("password_reset:a@x.io", "123456")]
          [⟨1, "a@x.io", "old"⟩] "a@x.io" "999999" "new" =
        (Except.error ⟨400, "Invalid or expired OTP"⟩,
          [("password_reset:a@x.io", "123456")], [⟨1, "a@x.io", "old"⟩])) :=
  ⟨(c10_password_reset_otp_single_use [("password_reset:a@x.io", "123456")]
      [⟨1, "a@x.io", "old"⟩] "a@x.io" "123456" (fun p => p) "new").1,
    (c10_password_reset_otp_single_use [("password_reset:a@x.io", "123456")]
      [⟨1, "a@x.io", "old"⟩] "a@x.io" "999999" (fun p => p) "new").2⟩

/- ======= Soft delete on BaseRepository (app/commons/repository.py) ======= -/

/-- Row of a model carrying SoftDeleteMixin (app/commons/models.py).  The
mapped column is deleted_datetime, the only column the query filters consult.
The extra field deleted_time models the plain Python instance attribute that
BaseRepository.delete assigns: SoftDeleteMixin maps no column of that name,
so the assignment creates an ordinary attribute and the following commit
persists no column change. -/
structure SoftDeleteRow where
  id : Nat
  deleted_datetime : Option Nat
  deleted_time : Option Nat
deriving DecidableEq, Repr

/-- Table of soft-deletable rows. -/
structure SoftDeleteDb where
  rows : List SoftDeleteRow
deriving DecidableEq, Repr

/-- BaseRepository.get for a SoftDeleteMixin model: filter on the id and on
deleted_datetime IS NULL. -/
def repo_get (db : SoftDeleteDb) (id : Nat) : Option SoftDeleteRow :=
  db.rows.find? fun r => r.id == id && r.deleted_datetime == none

/-- BaseRepository.get_or_404: the missing case is HTTP 404 with the model
name interpolated into the detail. -/
def repo_get_or_404 (model_name : String) (db : SoftDeleteDb) (id : Nat) :
    Except HttpError SoftDeleteRow :=
  match repo_get db id with
  | none => .error ⟨404, model_name ++ " not found"⟩
  | some obj => .ok obj

/-- BaseRepository.get_by_attributes for a SoftDeleteMixin model: the
attribute equality conditions are abstracted into the predicate, the
deleted_datetime IS NULL condition is appended, and the first match is
returned (scalar_one_or_none additionally errors on several matches, which
no claim exercises). -/
def repo_get_by_attributes (pred : SoftDeleteRow → Bool) (db : SoftDeleteDb) :
    Option SoftDeleteRow :=
  db.rows.find? fun r => pred r && r.deleted_datetime == none

/-- BaseRepository.list for a SoftDeleteMixin model: deleted filter, extra
attribute filters, offset, limit. -/
def repo_list (db : SoftDeleteDb) (skip limit : Nat)
    (pred : SoftDeleteRow → Bool) : List SoftDeleteRow :=
  ((((db.rows.filter fun r => r.deleted_datetime == none).filter pred).drop
    skip).take limit)

/-- BaseRepository.count for a SoftDeleteMixin model. -/
def repo_count (db : SoftDeleteDb) (pred : SoftDeleteRow → Bool) : Nat :=
  (((db.rows.filter fun r => r.deleted_datetime == none)).filter pred).length

/-- Item selection of BaseRepository.list_with_cursor for a SoftDeleteMixin
model ordered by the id column, after cursor decoding: deleted filter,
comparison against a truthy decoded cursor value, ordering in the requested
direction, fetch of limit + 1 rows, and trimming of the extra row. -/
def repo_list_with_cursor_rows (db : SoftDeleteDb) (cursor_value : Option Nat)
    (forward : Bool) (limit : Nat) : List SoftDeleteRow :=
  let q1 : List SoftDeleteRow := db.rows.filter fun r => r.deleted_datetime == none
  let q2 : List SoftDeleteRow := match cursor_value with
    | some v =>
      if v ≠ 0 then
        if forward then q1.filter (fun r => decide (v < r.id))
        else q1.filter (fun r => decide (r.id < v))
      else q1
    | none => q1
  let sorted := if forward then q2.mergeSort (fun a b => decide (a.id ≤ b.id))
    else q2.mergeSort (fun a b => decide (b.id ≤ a.id))
  let items := sorted.take (limit + 1)
  if items.length > limit then
    if forward then items.take limit else items.drop 1
  else items

/-- BaseRepository.delete: get_or_404, then for a SoftDeleteMixin model the
soft-delete branch executes obj.deleted_time = now and commits.  deleted_time
is not the mapped deleted_datetime column, so the mapped column keeps its
value. -/
def repo_delete (model_name : String) (db : SoftDeleteDb) (id : Nat)
    (now : Nat) : Except HttpError SoftDeleteDb :=
  match repo_get_or_404 model_name db id with
  | .error e => .error e
  | .ok obj =>
    .ok { rows := db.rows.map fun r =>
      if r.id = obj.id then { r with deleted_time := some now } else r }

/-- Claim C3 fails on the code: delete assigns the unmapped attribute
deleted_time while every reader filters on deleted_datetime, so after a
successful delete of the only row that row is still returned by get,
get_by_attributes, list and list_with_cursor, and still counted. -/
theorem c3_soft_delete_visibility_bug :
    repo_delete "User" ⟨[⟨1, none, none⟩]⟩ 1 5 =
      Except.ok ⟨[⟨1, none, some 5⟩]⟩ ∧
    repo_get ⟨[⟨1, none, some 5⟩]⟩ 1 = some ⟨1, none, some 5⟩ ∧
    repo_get_by_attributes (fun _ => true) ⟨[⟨1, none, some 5⟩]⟩ =
      some ⟨1, none, some 5⟩ ∧
    repo_list ⟨[⟨1, none, some 5⟩]⟩ 0 100 (fun _ => true) =
      [⟨1, none, some 5⟩] ∧
    repo_list_with_cursor_rows ⟨[⟨1, none, some 5⟩]⟩ none true 10 =
      [⟨1, none, some 5⟩] ∧
    repo_count ⟨[⟨1, none, some 5⟩]⟩ (fun _ => true) = 1 := by
  refine ⟨rfl, rfl, rfl, rfl, ?_, rfl⟩
  simp [repo_list_with_cursor_rows]

/- ====== User and permission creation (services/user.py, permission.py) === -/

/-- Errors the service layer can produce: HTTP exceptions, a genuine
pydantic validation error, Python TypeError (a call that does not bind a
required positional parameter, or an unconstructible class), and Python
ImportError (a from-import of a name the module does not define). -/
inductive ServiceError where
  | http (e : HttpError)
  | validation (msg : String)
  | typeError (msg : String)
  | importError (msg : String)
deriving DecidableEq, Repr

/-- Single-quote character as a string, written by code point so the Python
error texts below can carry the quotes CPython and the f-strings emit. -/
def squote : String := String.singleton (Char.ofNat 39)

/-- User row for the creation path, restricted to the columns the uniqueness
checks read. -/
structure UserRow where
  id : Nat
  email : String
  phone_number : Option String
  password : String
  deleted_datetime : Option Nat
deriving DecidableEq, Repr

/-- UserRepository.get_by_email with the default include_deleted False:
filter on email and deleted_datetime IS NULL. -/
def user_get_by_email (users : List UserRow) (email : String) : Option UserRow :=
  users.find? fun u => u.email == email && u.deleted_datetime == none

/-- UserRepository.get_by_phone with the default include_deleted False. -/
def user_get_by_phone (users : List UserRow) (phone : String) : Option UserRow :=
  users.find? fun u => u.phone_number == some phone && u.deleted_datetime == none

/-- The phone branch guard of UserService.create: Python truthiness of the
optional phone string (None and the empty string are falsy) and a matching
non-deleted user. -/
def phone_conflict (users : List UserRow) (phone_number : Option String) : Bool :=
  match phone_number with
  | some p => decide (p ≠ "") && (user_get_by_phone users p).isSome
  | none => false

/-- Names importable from app.commons.exceptions: the module defines
AppException and setup_exception_handlers and binds its own imports (typing,
fastapi, loguru, pydantic ValidationError, sqlalchemy IntegrityError).
NotFoundException is not among them. -/
def exceptions_module_names : List String :=
  ["Any", "Dict", "Optional", "FastAPI", "Request", "status", "JSONResponse",
   "logger", "ValidationError", "IntegrityError",
   "AppException", "setup_exception_handlers"]

/-- Names the from-import at the top of app/api/users/services/user.py asks
app.commons.exceptions for. -/
def user_service_imports : List String := ["NotFoundException", "ValidationError"]

/-- Loading app.api.users.services.user runs its import statements; a
requested name absent from app.commons.exceptions raises ImportError and the
module never loads, so nothing defined in it (UserService included) exists. -/
def load_user_service_module : Except ServiceError Unit :=
  match user_service_imports.find? (fun n => !exceptions_module_names.contains n) with
  | some n => .error (.importError ("cannot import name " ++ squote ++ n ++ squote
      ++ " from " ++ squote ++ "app.commons.exceptions" ++ squote))
  | none => .ok ()

/-- Required positional parameters of BaseRepository.__init__ after self. -/
def base_repository_init_params : List String := ["model", "db_session"]

/-- Positional arguments UserService.__init__ supplies in
UserRepository(session); UserRepository overrides no __init__ of its own. -/
def user_repository_init_args : Nat := 1

/-- Constructing UserService(session) runs UserRepository(session): one
positional argument against the two required parameters of
BaseRepository.__init__, so the session binds to model, db_session stays
unbound, and Python raises TypeError before any service method can run. -/
def construct_user_service : Except ServiceError Unit :=
  match base_repository_init_params.drop user_repository_init_args with
  | [] => .ok ()
  | missing => .error (.typeError ("BaseRepository.__init__() missing "
      ++ toString missing.length ++ " required positional argument: "
      ++ squote ++ String.intercalate (squote ++ ", " ++ squote) missing ++ squote))

/-- The raise ValidationError(message) statements of UserService.create name
the pydantic v2 ValidationError re-exported by app.commons.exceptions, which
has no constructor taking a bare message: the constructor call itself raises
TypeError, so no validation error can come out of these branches. -/
def raise_pydantic_validation_error (msg : String) : ServiceError :=
  .typeError ("ValidationError(" ++ squote ++ msg ++ squote
    ++ ") raises TypeError: pydantic v2 ValidationError is not constructible from a bare message")

/-- The body of UserService.create as written: a taken email, or a truthy
phone number belonging to a non-deleted user, reaches a raise
ValidationError(message) whose constructor call raises TypeError; otherwise
the password is hashed (bcrypt delegated as hash_password) and the row
inserted.  This body is reachable only once the module has loaded and the
service has been constructed. -/
def user_service_create_body (hash_password : String → String)
    (users : List UserRow) (new_id : Nat) (email password : String)
    (phone_number : Option String) :
    Except ServiceError (List UserRow × UserRow) :=
  if (user_get_by_email users email).isSome then
    .error (raise_pydantic_validation_error ("Email " ++ email ++ " is already taken"))
  else if phone_conflict users phone_number then
    .error (raise_pydantic_validation_error ("Phone number " ++
      (phone_number.getD "") ++ " is already taken"))
  else
    let user : UserRow :=
      { id := new_id
        email := email
        phone_number := phone_number
        password := hash_password password
        deleted_datetime := none }
    .ok (users ++ [user], user)

/-- UserService.create as the program can actually run it: the module import
fails first, and even past that the service constructor raises TypeError, so
the body never executes on any input. -/
def user_service_create (hash_password : String → String)
    (users : List UserRow) (new_id : Nat) (email password : String)
    (phone_number : Option String) :
    Except ServiceError (List UserRow × UserRow) := do
  let _ ← load_user_service_module
  let _ ← construct_user_service
  user_service_create_body hash_password users new_id email password phone_number

/-- Permission row for the creation path. -/
structure PermissionRow where
  id : Nat
  name : String
  code : String
deriving DecidableEq, Repr

/-- PermissionCreate schema (app/api/authorization/schema/permission.py). -/
structure PermissionCreate where
  name : String
  code : String
  description : Option String
deriving DecidableEq, Repr

/-- PermissionRepository.get_by_code: get_by_attributes on code; Permission
carries no SoftDeleteMixin, so no deleted filter is added. -/
def permission_get_by_code (perms : List PermissionRow) (code : String) :
    Option PermissionRow :=
  perms.find? fun p => p.code == code

/-- Keys of PermissionCreate.model_dump(), the keyword argument names that
create_permission passes to BaseRepository.create. -/
def permission_model_dump_keys : List String := ["name", "code", "description"]

/-- Python call semantics for BaseRepository.create, whose signature is
(self, schema, ** kwargs): a keyword-only call binds the required positional
parameter schema only when schema is among the supplied names; otherwise
Python raises TypeError before the body runs.  The continuation is what the
body would do once schema were bound. -/
def base_repository_create_kwcall (kwarg_names : List String)
    (body : Except ServiceError (List PermissionRow)) :
    Except ServiceError (List PermissionRow) :=
  if kwarg_names.contains "schema" then body
  else .error (.typeError ("create() missing 1 required positional argument: "
    ++ squote ++ "schema" ++ squote))

/-- Detail of the 409 conflict response, from the f-string in
PermissionService.create_permission: the code appears wrapped in single
quotes. -/
def permission_conflict_detail (code : String) : String :=
  "Permission with code " ++ squote ++ code ++ squote ++ " already exists"

/-- PermissionService.create_permission: HTTP 409 when the code exists,
otherwise the call repository.create(** data.model_dump()). -/
def create_permission (perms : List PermissionRow) (new_id : Nat)
    (data : PermissionCreate) : Except ServiceError (List PermissionRow) :=
  match permission_get_by_code perms data.code with
  | some _ => .error (.http ⟨409, permission_conflict_detail data.code⟩)
  | none =>
    base_repository_create_kwcall permission_model_dump_keys
      (.ok (perms ++ [⟨new_id, data.name, data.code⟩]))

/-- Claim C4 fails on both paths.  User path: the module holding
UserService.create never loads (its from-import asks app.commons.exceptions
for NotFoundException, which that module does not define, an ImportError),
and even past that UserService(session) raises TypeError constructing
UserRepository(session) with db_session unbound; so on every input — a taken
email as much as a fresh one — the call dies with the ImportError, no
validation error is ever raised and no user is ever created; and even the
body in isolation turns the duplicate-email raise into TypeError, because
pydantic v2 ValidationError is not constructible from a bare message.
Permission path: a duplicate code does give HTTP 409 with the quoted detail,
but a fresh code raises TypeError because repository.create is called with
keywords name, code, description and its required positional parameter
schema stays unbound, so no permission is ever created either. -/
theorem c4_uniqueness_on_create :
    load_user_service_module =
      Except.error (.importError ("cannot import name " ++ squote
        ++ "NotFoundException" ++ squote ++ " from " ++ squote
        ++ "app.commons.exceptions" ++ squote)) ∧
    construct_user_service =
      Except.error (.typeError
        ("BaseRepository.__init__() missing 1 required positional argument: "
          ++ squote ++ "db_session" ++ squote)) ∧
    user_service_create (fun p => p) [⟨1, "a@x.io", some "070", "h", none⟩] 2
        "a@x.io" "pw" none =
      Except.error (.importError ("cannot import name " ++ squote
        ++ "NotFoundException" ++ squote ++ " from " ++ squote
        ++ "app.commons.exceptions" ++ squote)) ∧
    user_service_create (fun p => p) [⟨1, "a@x.io", some "070", "h", none⟩] 2
        "b@x.io" "pw" (some "071") =
      Except.error (.importError ("cannot import name " ++ squote
        ++ "NotFoundException" ++ squote ++ " from " ++ squote
        ++ "app.commons.exceptions" ++ squote)) ∧
    user_service_create_body (fun p => p)
        [⟨1, "a@x.io", some "070", "h", none⟩] 2 "a@x.io" "pw" none =
      Except.error (raise_pydantic_validation_error
        "Email a@x.io is already taken") ∧
    create_permission [⟨1, "Read users", "users.read"⟩] 2
        ⟨"Read users", "users.read", none⟩ =
      Except.error (.http ⟨409, permission_conflict_detail "users.read"⟩) ∧
    create_permission [⟨1, "Read users", "users.read"⟩] 2
        ⟨"Write users", "users.write", none⟩ =
      Except.error (.typeError
        ("create() missing 1 required positional argument: "
          ++ squote ++ "schema" ++ squote)) := by
  refine ⟨rfl, rfl, rfl, rfl, rfl, rfl, rfl⟩

/- ============ Exception handlers (app/commons/errors/handlers.py) ======== -/

/-- Parameter names of create_error_response in
app/commons/errors/handlers.py: request, message, and the defaulted
error_code and data. -/
def create_error_response_params : List String :=
  ["request", "message", "error_code", "data"]

/-- Keyword names handle_app_exception passes to create_error_response. -/
def handle_app_exception_kwargs : List String :=
  ["request", "message", "status_code", "error_code", "data"]

/-- Keyword names handle_validation_error passes to create_error_response. -/
def handle_validation_error_kwargs : List String :=
  ["request", "message", "error_code", "data"]

/-- Keyword names handle_request_validation_error passes. -/
def handle_request_validation_error_kwargs : List String :=
  ["request", "message", "error_code", "data"]

/-- Keyword names handle_integrity_error passes to create_error_response. -/
def handle_integrity_error_kwargs : List String :=
  ["request", "message", "error_code"]

/-- Keyword names handle_http_exception passes to create_error_response. -/
def handle_http_exception_kwargs : List String :=
  ["request", "message", "error_code"]

/-- Keyword names handle_unhandled_exception passes. -/
def handle_unhandled_exception_kwargs : List String :=
  ["request", "message", "status_code", "error_code"]

/-- JSON error response: the status code of the JSONResponse wrapper and the
message of the body built by create_error_response. -/
structure JsonErrorResponse where
  status_code : Nat
  message : String
deriving DecidableEq, Repr

/-- Python keyword-call semantics for create_error_response: every supplied
keyword must name a parameter, otherwise TypeError is raised before the body
builds the response dict. -/
def call_create_error_response (kwarg_names : List String) (message : String) :
    Except ServiceError String :=
  if kwarg_names.all (fun k => create_error_response_params.contains k) then
    .ok message
  else .error (.typeError
    "create_error_response() got an unexpected keyword argument")

/-- AppException (app/commons/errors/exception.py): message and status code
(default 500). -/
structure AppExceptionModel where
  message : String
  status_code : Nat
deriving DecidableEq, Repr

/-- handle_app_exception: JSONResponse with the exception status around the
create_error_response body; the call passes status_code, which
create_error_response does not accept. -/
def handle_app_exception (exc : AppExceptionModel) :
    Except ServiceError JsonErrorResponse :=
  (call_create_error_response handle_app_exception_kwargs exc.message).map
    fun body => ⟨exc.status_code, body⟩

/-- handle_validation_error: HTTP 422 with message Invalid submitted data. -/
def handle_validation_error : Except ServiceError JsonErrorResponse :=
  (call_create_error_response handle_validation_error_kwargs
    "Invalid submitted data").map fun body => ⟨422, body⟩

/-- handle_request_validation_error: HTTP 422 as well. -/
def handle_request_validation_error : Except ServiceError JsonErrorResponse :=
  (call_create_error_response handle_request_validation_error_kwargs
    "Invalid submitted data").map fun body => ⟨422, body⟩

/-- handle_integrity_error: HTTP 409 with message Data integrity error. -/
def handle_integrity_error : Except ServiceError JsonErrorResponse :=
  (call_create_error_response handle_integrity_error_kwargs
    "Data integrity error").map fun body => ⟨409, body⟩

/-- handle_http_exception: JSONResponse with the exception status and
detail. -/
def handle_http_exception (exc : HttpError) :
    Except ServiceError JsonErrorResponse :=
  (call_create_error_response handle_http_exception_kwargs exc.detail).map
    fun body => ⟨exc.status_code, body⟩

/-- handle_unhandled_exception: HTTP 500; the call also passes status_code. -/
def handle_unhandled_exception : Except ServiceError JsonErrorResponse :=
  (call_create_error_response handle_unhandled_exception_kwargs
    "Internal server error").map fun body => ⟨500, body⟩

/-- Claim C5 fails on the code: the validation, integrity and HTTPException
handlers do produce JSON responses with the mapped codes, but the
AppException handler and the unhandled-exception handler call
create_error_response with the unexpected keyword status_code, raising
TypeError instead of returning the JSON 500 (or mapped) body. -/
theorem c5_exception_handler_typeerror :
    handle_validation_error = Except.ok ⟨422, "Invalid submitted data"⟩ ∧
    handle_request_validation_error =
      Except.ok ⟨422, "Invalid submitted data"⟩ ∧
    handle_integrity_error = Except.ok ⟨409, "Data integrity error"⟩ ∧
    (∀ exc : HttpError,
      handle_http_exception exc = Except.ok ⟨exc.status_code, exc.detail⟩) ∧
    handle_app_exception ⟨"boom", 400⟩ =
      Except.error (.typeError
        "create_error_response() got an unexpected keyword argument") ∧
    handle_unhandled_exception =
      Except.error (.typeError
        "create_error_response() got an unexpected keyword argument") := by
  exact ⟨rfl, rfl, rfl, fun exc => rfl, rfl, rfl⟩

/- ======== Cursor encoding (app/commons/pagination.py CursorPagination) === -/

/- The cursor helpers compose the Python standard library primitives
json.dumps / json.loads (ensure_ascii default, canonical separators),
str.encode / bytes.decode in UTF-8, and base64.urlsafe_b64encode /
urlsafe_b64decode.  These library primitives are embedded below from their
documented behaviour, bytes as lists of Nat below 256. -/

/-- Character of the standard base64 alphabet at an index below 64. -/
def b64Char (i : Nat) : Char :=
  if i < 26 then Char.ofNat (65 + i)
  else if i < 52 then Char.ofNat (97 + (i - 26))
  else if i < 62 then Char.ofNat (48 + (i - 52))
  else if i = 62 then '+'
  else '/'

/-- Index of a standard base64 alphabet character, none outside the
alphabet. -/
def b64DigitVal (c : Char) : Option Nat :=
  if 'A' ≤ c ∧ c ≤ 'Z' then some (c.toNat - 65)
  else if 'a' ≤ c ∧ c ≤ 'z' then some (c.toNat - 97 + 26)
  else if '0' ≤ c ∧ c ≤ '9' then some (c.toNat - 48 + 52)
  else if c = '+' then some 62
  else if c = '/' then some 63
  else none

/-- Standard base64 encoding of a byte list, three bytes to four characters
with = padding. -/
def b64EncodeChunks : List Nat → List Char
  | b1 :: b2 :: b3 :: rest =>
    b64Char (b1 / 4) :: b64Char (b1 % 4 * 16 + b2 / 16) ::
      b64Char (b2 % 16 * 4 + b3 / 64) :: b64Char (b3 % 64) ::
      b64EncodeChunks rest
  | [b1, b2] =>
    [b64Char (b1 / 4), b64Char (b1 % 4 * 16 + b2 / 16), b64Char (b2 % 16 * 4),
      '=']
  | [b1] => [b64Char (b1 / 4), b64Char (b1 % 4 * 16), '=', '=']
  | [] => []

/-- The urlsafe alphabet substitutes - and _ for + and /. -/
def urlsafeOfStd (c : Char) : Char :=
  if c = '+' then '-' else if c = '/' then '_' else c

/-- base64.urlsafe_b64encode on a byte list. -/
def urlsafe_b64encode (bs : List Nat) : List Char :=
  (b64EncodeChunks bs).map urlsafeOfStd

/-- The translation urlsafe_b64decode applies before standard decoding. -/
def stdOfUrlsafe (c : Char) : Char :=
  if c = '-' then '+' else if c = '_' then '/' else c

/-- Four base64 characters back to bytes; terminal groups may carry =
padding; a leftover that is not a full group fails, as binascii rejects
incorrect padding. -/
def b64DecodeQuads : List Char → Option (List Nat)
  | [] => some []
  | a :: b :: c :: d :: rest =>
    match b64DigitVal a, b64DigitVal b with
    | some va, some vb =>
      if c = '=' then
        if d = '=' ∧ rest = [] then some [va * 4 + vb / 16] else none
      else
        match b64DigitVal c with
        | some vc =>
          if d = '=' then
            if rest = [] then some [va * 4 + vb / 16, vb % 16 * 16 + vc / 4]
            else none
          else
            match b64DigitVal d with
            | some vd =>
              (b64DecodeQuads rest).map fun tail =>
                (va * 4 + vb / 16) :: (vb % 16 * 16 + vc / 4) ::
                  (vc % 4 * 64 + vd) :: tail
            | none => none
        | none => none
    | _, _ => none
  | _ => none

/-- base64.urlsafe_b64decode: translate the urlsafe characters, discard
characters outside the alphabet (the non-strict binascii behaviour), then
decode the four character groups. -/
def urlsafe_b64decode (s : List Char) : Option (List Nat) :=
  b64DecodeQuads ((s.map stdOfUrlsafe).filter
    fun c => (b64DigitVal c).isSome || c == '=')

/-- Decoding inverts the alphabet on indices below 64. -/
theorem b64DigitVal_b64Char : ∀ i < 64, b64DigitVal (b64Char i) = some i := by
  decide

/-- Alphabet characters are never the padding character. -/
theorem b64Char_ne_pad : ∀ i < 64, b64Char i ≠ '=' := by decide

/-- The urlsafe translation round-trips on alphabet characters. -/
theorem stdOfUrlsafe_urlsafeOfStd :
    ∀ i < 64, stdOfUrlsafe (urlsafeOfStd (b64Char i)) = b64Char i := by decide

/-- Every character the encoder emits is an alphabet character or padding. -/
theorem b64EncodeChunks_chars (bs : List Nat) (h : ∀ b ∈ bs, b < 256) :
    ∀ c ∈ b64EncodeChunks bs, (∃ i, i < 64 ∧ c = b64Char i) ∨ c = '=' := by
  induction bs using b64EncodeChunks.induct with
  | case1 b1 b2 b3 rest ih =>
    have hb1 : b1 < 256 := h b1 (by simp)
    have hb2 : b2 < 256 := h b2 (by simp)
    have hb3 : b3 < 256 := h b3 (by simp)
    intro c hc
    simp only [b64EncodeChunks, List.mem_cons] at hc
    rcases hc with rfl | rfl | rfl | rfl | hc
    · exact Or.inl ⟨b1 / 4, by omega, rfl⟩
    · exact Or.inl ⟨b1 % 4 * 16 + b2 / 16, by omega, rfl⟩
    · exact Or.inl ⟨b2 % 16 * 4 + b3 / 64, by omega, rfl⟩
    · exact Or.inl ⟨b3 % 64, by omega, rfl⟩
    · exact ih (fun b hb => h b (by simp [hb])) c hc
  | case2 b1 b2 =>
    have hb1 : b1 < 256 := h b1 (by simp)
    have hb2 : b2 < 256 := h b2 (by simp)
    intro c hc
    simp only [b64EncodeChunks, List.mem_cons, List.not_mem_nil, or_false]
      at hc
    rcases hc with rfl | rfl | rfl | rfl
    · exact Or.inl ⟨b1 / 4, by omega, rfl⟩
    · exact Or.inl ⟨b1 % 4 * 16 + b2 / 16, by omega, rfl⟩
    · exact Or.inl ⟨b2 % 16 * 4, by omega, rfl⟩
    · exact Or.inr rfl
  | case3 b1 =>
    have hb1 : b1 < 256 := h b1 (by simp)
    intro c hc
    simp only [b64EncodeChunks, List.mem_cons, List.not_mem_nil, or_false]
      at hc
    rcases hc with rfl | rfl | rfl | rfl
    · exact Or.inl ⟨b1 / 4, by omega, rfl⟩
    · exact Or.inl ⟨b1 % 4 * 16, by omega, rfl⟩
    · exact Or.inr rfl
    · exact Or.inr rfl
  | case4 => intro c hc; simp [b64EncodeChunks] at hc

/-- The translate and discard steps of urlsafe_b64decode leave the encoder
output untouched. -/
theorem b64Clean_of_alphabet (s : List Char)
    (h : ∀ c ∈ s, (∃ i, i < 64 ∧ c = b64Char i) ∨ c = '=') :
    ((s.map urlsafeOfStd).map stdOfUrlsafe).filter
      (fun c => (b64DigitVal c).isSome || c == '=') = s := by
  induction s with
  | nil => rfl
  | cons c cs ih =>
    have htail := ih fun x hx => h x (by simp [hx])
    have hkeep : stdOfUrlsafe (urlsafeOfStd c) = c ∧
        ((b64DigitVal c).isSome || c == '=') = true := by
      rcases h c (by simp) with ⟨i, hi, rfl⟩ | rfl
      · refine ⟨stdOfUrlsafe_urlsafeOfStd i hi, ?_⟩
        rw [b64DigitVal_b64Char i hi]
        rfl
      · exact ⟨by decide, by decide⟩
    show ((stdOfUrlsafe (urlsafeOfStd c)) ::
        ((cs.map urlsafeOfStd).map stdOfUrlsafe)).filter
          (fun c => (b64DigitVal c).isSome || c == '=') = c :: cs
    rw [hkeep.1]
    simp only [List.filter_cons, hkeep.2, if_true, htail]

/-- Group decoding inverts group encoding on byte lists. -/
theorem b64DecodeQuads_encode (bs : List Nat) (h : ∀ b ∈ bs, b < 256) :
    b64DecodeQuads (b64EncodeChunks bs) = some bs := by
  induction bs using b64EncodeChunks.induct with
  | case1 b1 b2 b3 rest ih =>
    have hb1 : b1 < 256 := h b1 (by simp)
    have hb2 : b2 < 256 := h b2 (by simp)
    have hb3 : b3 < 256 := h b3 (by simp)
    have h1 : b1 / 4 < 64 := by omega
    have h2 : b1 % 4 * 16 + b2 / 16 < 64 := by omega
    have h3 : b2 % 16 * 4 + b3 / 64 < 64 := by omega
    have h4 : b3 % 64 < 64 := by omega
    have htail := ih fun b hb => h b (by simp [hb])
    simp only [b64EncodeChunks, b64DecodeQuads,
      b64DigitVal_b64Char _ h1, b64DigitVal_b64Char _ h2,
      b64DigitVal_b64Char _ h3, b64DigitVal_b64Char _ h4,
      if_neg (b64Char_ne_pad _ h3), if_neg (b64Char_ne_pad _ h4), htail,
      Option.map_some']
    refine congrArg some ?_
    simp only [List.cons.injEq, and_true]
    omega
  | case2 b1 b2 =>
    have hb1 : b1 < 256 := h b1 (by simp)
    have hb2 : b2 < 256 := h b2 (by simp)
    have h1 : b1 / 4 < 64 := by omega
    have h2 : b1 % 4 * 16 + b2 / 16 < 64 := by omega
    have h3 : b2 % 16 * 4 < 64 := by omega
    simp only [b64EncodeChunks, b64DecodeQuads,
      b64DigitVal_b64Char _ h1, b64DigitVal_b64Char _ h2,
      b64DigitVal_b64Char _ h3, if_neg (b64Char_ne_pad _ h3), if_pos rfl,
      if_pos (show '=' = '=' ∧ True from ⟨rfl, trivial⟩)]
    refine congrArg some ?_
    simp only [List.cons.injEq, and_true]
    omega
  | case3 b1 =>
    have hb1 : b1 < 256 := h b1 (by simp)
    have h1 : b1 / 4 < 64 := by omega
    have h2 : b1 % 4 * 16 < 64 := by omega
    simp only [b64EncodeChunks, b64DecodeQuads,
      b64DigitVal_b64Char _ h1, b64DigitVal_b64Char _ h2, if_pos rfl]
    refine congrArg some ?_
    simp only [List.cons.injEq, and_true]
    omega
  | case4 => rfl

/-- urlsafe base64 decode inverts urlsafe base64 encode on byte lists. -/
theorem urlsafe_b64_roundtrip (bs : List Nat) (h : ∀ b ∈ bs, b < 256) :
    urlsafe_b64decode (urlsafe_b64encode bs) = some bs := by
  unfold urlsafe_b64decode urlsafe_b64encode
  rw [b64Clean_of_alphabet (b64EncodeChunks bs) (b64EncodeChunks_chars bs h)]
  exact b64DecodeQuads_encode bs h

/-- Validity bounds of a Lean character code point: below the surrogate range
or above it and below 0x110000. -/
theorem char_toNat_valid (c : Char) :
    c.toNat < 55296 ∨ (57343 < c.toNat ∧ c.toNat < 1114112) := by
  rcases c.valid with h | ⟨h1, h2⟩
  · exact Or.inl (UInt32.toNat_lt_of_lt (by norm_num) h)
  · exact Or.inr ⟨UInt32.lt_toNat_of_lt (by norm_num) h1,
      UInt32.toNat_lt_of_lt (by norm_num) h2⟩

/-- UTF-8 encoding of one character: one to four bytes. -/
def utf8EncodeChar (c : Char) : List Nat :=
  let n := c.toNat
  if n < 128 then [n]
  else if n < 2048 then [192 + n / 64, 128 + n % 64]
  else if n < 65536 then [224 + n / 4096, 128 + n / 64 % 64, 128 + n % 64]
  else [240 + n / 262144, 128 + n / 4096 % 64, 128 + n / 64 % 64,
    128 + n % 64]

/-- str.encode in UTF-8 over the character list. -/
def utf8EncodeChars (cs : List Char) : List Nat := cs.flatMap utf8EncodeChar

/-- Second byte constraint of a three byte sequence, ruling out overlong
forms and surrogates. -/
def Utf8Cont3 (b b2 : Nat) : Prop :=
  (b = 224 ∧ 160 ≤ b2 ∧ b2 ≤ 191) ∨ (b = 237 ∧ 128 ≤ b2 ∧ b2 ≤ 159) ∨
    (b ≠ 224 ∧ b ≠ 237 ∧ 128 ≤ b2 ∧ b2 ≤ 191)

instance (b b2 : Nat) : Decidable (Utf8Cont3 b b2) := by
  unfold Utf8Cont3
  exact inferInstance

/-- Second byte constraint of a four byte sequence, ruling out overlong
forms and points above 0x10FFFF. -/
def Utf8Cont4 (b b2 : Nat) : Prop :=
  (b = 240 ∧ 144 ≤ b2 ∧ b2 ≤ 191) ∨ (b = 244 ∧ 128 ≤ b2 ∧ b2 ≤ 143) ∨
    (b ≠ 240 ∧ b ≠ 244 ∧ 128 ≤ b2 ∧ b2 ≤ 191)

instance (b b2 : Nat) : Decidable (Utf8Cont4 b b2) := by
  unfold Utf8Cont4
  exact inferInstance

mutual

/-- bytes.decode in UTF-8: strict decoding of one to four byte sequences
with the standard validity constraints; any malformed sequence fails, as the
Python decoder raises UnicodeDecodeError, a ValueError.  The continuation
bytes of the longer sequences are consumed by the mutual helpers below. -/
def utf8DecodeChars : List Nat → Option (List Char)
  | [] => some []
  | b :: rest =>
    if b < 128 then (utf8DecodeChars rest).map fun cs => Char.ofNat b :: cs
    else if 194 ≤ b ∧ b ≤ 223 then utf8DecodeTwo b rest
    else if 224 ≤ b ∧ b ≤ 239 then utf8DecodeThree b rest
    else if 240 ≤ b ∧ b ≤ 244 then utf8DecodeFour b rest
    else none

def utf8DecodeTwo (b : Nat) : List Nat → Option (List Char)
  | b2 :: rest2 =>
    if 128 ≤ b2 ∧ b2 ≤ 191 then
      (utf8DecodeChars rest2).map fun cs =>
        Char.ofNat ((b - 192) * 64 + (b2 - 128)) :: cs
    else none
  | [] => none

def utf8DecodeThree (b : Nat) : List Nat → Option (List Char)
  | b2 :: b3 :: rest3 =>
    if Utf8Cont3 b b2 ∧ 128 ≤ b3 ∧ b3 ≤ 191 then
      (utf8DecodeChars rest3).map fun cs =>
        Char.ofNat ((b - 224) * 4096 + (b2 - 128) * 64 + (b3 - 128)) :: cs
    else none
  | _ => none

def utf8DecodeFour (b : Nat) : List Nat → Option (List Char)
  | b2 :: b3 :: b4 :: rest4 =>
    if Utf8Cont4 b b2 ∧ 128 ≤ b3 ∧ b3 ≤ 191 ∧ 128 ≤ b4 ∧ b4 ≤ 191 then
      (utf8DecodeChars rest4).map fun cs =>
        Char.ofNat ((b - 240) * 262144 + (b2 - 128) * 4096 +
          (b3 - 128) * 64 + (b4 - 128)) :: cs
    else none
  | _ => none

end

/-- Decoding consumes one encoded character and continues. -/
theorem utf8DecodeChars_encodeChar (c : Char) (rest : List Nat) :
    utf8DecodeChars (utf8EncodeChar c ++ rest) =
      (utf8DecodeChars rest).map fun cs => c :: cs := by
  have hv := char_toNat_valid c
  by_cases h1 : c.toNat < 128
  · have he : utf8EncodeChar c = [c.toNat] := by
      unfold utf8EncodeChar
      rw [if_pos h1]
    rw [he, List.singleton_append, utf8DecodeChars, if_pos h1,
      Char.ofNat_toNat]
  · by_cases h2 : c.toNat < 2048
    · have he : utf8EncodeChar c = [192 + c.toNat / 64, 128 + c.toNat % 64]
          := by
        unfold utf8EncodeChar
        rw [if_neg h1, if_pos h2]
      rw [he, List.cons_append, List.singleton_append, utf8DecodeChars,
        if_neg (by omega), if_pos (by omega), utf8DecodeTwo,
        if_pos (by omega)]
      have hn : (192 + c.toNat / 64 - 192) * 64 + (128 + c.toNat % 64 - 128)
          = c.toNat := by omega
      rw [hn, Char.ofNat_toNat]
    · by_cases h3 : c.toNat < 65536
      · have he : utf8EncodeChar c = [224 + c.toNat / 4096,
            128 + c.toNat / 64 % 64, 128 + c.toNat % 64] := by
          unfold utf8EncodeChar
          rw [if_neg h1, if_neg h2, if_pos h3]
        have hcond : Utf8Cont3 (224 + c.toNat / 4096)
            (128 + c.toNat / 64 % 64) := by
          unfold Utf8Cont3
          rcases hv with hlt | ⟨hgt, _⟩
          · by_cases hs : c.toNat < 4096
            · left; omega
            · by_cases hs2 : 53248 ≤ c.toNat
              · right; left; omega
              · right; right; omega
          · right; right; omega
        rw [he, List.cons_append, List.cons_append, List.singleton_append,
          utf8DecodeChars, if_neg (by omega), if_neg (by omega),
          if_pos (by omega), utf8DecodeThree,
          if_pos ⟨hcond, by omega, by omega⟩]
        have hn : (224 + c.toNat / 4096 - 224) * 4096 +
            (128 + c.toNat / 64 % 64 - 128) * 64 +
            (128 + c.toNat % 64 - 128) = c.toNat := by omega
        rw [hn, Char.ofNat_toNat]
      · have h4 : c.toNat < 1114112 := by omega
        have he : utf8EncodeChar c = [240 + c.toNat / 262144,
            128 + c.toNat / 4096 % 64, 128 + c.toNat / 64 % 64,
            128 + c.toNat % 64] := by
          unfold utf8EncodeChar
          rw [if_neg h1, if_neg h2, if_neg h3]
        have hcond : Utf8Cont4 (240 + c.toNat / 262144)
            (128 + c.toNat / 4096 % 64) := by
          unfold Utf8Cont4
          by_cases hs : c.toNat < 262144
          · left; omega
          · by_cases hs2 : 1048576 ≤ c.toNat
            · right; left; omega
            · right; right; omega
        rw [he, List.cons_append, List.cons_append, List.cons_append,
          List.singleton_append, utf8DecodeChars, if_neg (by omega),
          if_neg (by omega), if_neg (by omega), if_pos (by omega),
          utf8DecodeFour, if_pos ⟨hcond, by omega, by omega, by omega,
            by omega⟩]
        have hn : (240 + c.toNat / 262144 - 240) * 262144 +
            (128 + c.toNat / 4096 % 64 - 128) * 4096 +
            (128 + c.toNat / 64 % 64 - 128) * 64 +
            (128 + c.toNat % 64 - 128) = c.toNat := by omega
        rw [hn, Char.ofNat_toNat]

/-- UTF-8 decoding inverts UTF-8 encoding on character lists. -/
theorem utf8_roundtrip (cs : List Char) :
    utf8DecodeChars (utf8EncodeChars cs) = some cs := by
  induction cs with
  | nil => rfl
  | cons c cs ih =>
    have hsplit : utf8EncodeChars (c :: cs) =
        utf8EncodeChar c ++ utf8EncodeChars cs := rfl
    rw [hsplit, utf8DecodeChars_encodeChar, ih]
    rfl

/-- Every byte the UTF-8 encoder emits is below 256. -/
theorem utf8EncodeChar_lt (c : Char) : ∀ b ∈ utf8EncodeChar c, b < 256 := by
  have hv := char_toNat_valid c
  intro b hb
  unfold utf8EncodeChar at hb
  by_cases h1 : c.toNat < 128
  · simp only [if_pos h1, List.mem_singleton] at hb
    omega
  · by_cases h2 : c.toNat < 2048
    · simp only [if_neg h1, if_pos h2, List.mem_cons, List.not_mem_nil,
        or_false] at hb
      rcases hb with rfl | rfl <;> omega
    · by_cases h3 : c.toNat < 65536
      · simp only [if_neg h1, if_neg h2, if_pos h3, List.mem_cons,
          List.not_mem_nil, or_false] at hb
        rcases hb with rfl | rfl | rfl <;> omega
      · simp only [if_neg h1, if_neg h2, if_neg h3, List.mem_cons,
          List.not_mem_nil, or_false] at hb
        rcases hb with rfl | rfl | rfl | rfl <;> omega

/-- JSON scalar values as they appear in cursor dictionaries. -/
inductive JScalar where
  | null
  | bool (b : Bool)
  | int (n : Int)
  | str (s : String)
deriving DecidableEq, Repr

/-- A JSON object with scalar members, the shape of cursor data: an ordered
association list; a Python dict has distinct keys, which the embedding does
not need to assume. -/
abbrev JDict := List (String × JScalar)

/-- Lowercase hexadecimal digit, as json.dumps emits in escapes. -/
def hexDigitChar (n : Nat) : Char :=
  if n < 10 then Char.ofNat (48 + n) else Char.ofNat (87 + n)

/-- A backslash u escape of a sixteen bit value. -/
def uEscape (n : Nat) : List Char :=
  ['\\', 'u', hexDigitChar (n / 4096 % 16), hexDigitChar (n / 256 % 16),
    hexDigitChar (n / 16 % 16), hexDigitChar (n % 16)]

/-- Escaping of one character by json.dumps with the default
ensure_ascii=True: quote and backslash escaped, the short escapes for the
common control characters, printable ASCII verbatim, everything else as
backslash u escapes, with surrogate pairs above 0xFFFF. -/
def escapeChar (c : Char) : List Char :=
  let n := c.toNat
  if c = '"' then ['\\', '"']
  else if c = '\\' then ['\\', '\\']
  else if c = '\x08' then ['\\', 'b']
  else if c = '\t' then ['\\', 't']
  else if c = '\n' then ['\\', 'n']
  else if c = '\x0c' then ['\\', 'f']
  else if c = '\r' then ['\\', 'r']
  else if 32 ≤ n ∧ n ≤ 126 then [c]
  else if n < 65536 then uEscape n
  else uEscape (55296 + (n - 65536) / 1024) ++ uEscape (56320 + (n - 65536) % 1024)

/-- A JSON string literal: quote, escaped content, quote. -/
def escapeString (s : String) : List Char :=
  '"' :: (s.data.flatMap escapeChar ++ ['"'])

/-- Decimal digits of a natural number, most significant first. -/
def natToDigits (n : Nat) : List Char :=
  if h : n < 10 then [Char.ofNat (48 + n)]
  else natToDigits (n / 10) ++ [Char.ofNat (48 + n % 10)]
termination_by n
decreasing_by omega

/-- Decimal rendering of a Python int by json.dumps. -/
def intToChars (n : Int) : List Char :=
  if n < 0 then '-' :: natToDigits n.natAbs else natToDigits n.toNat

/-- json.dumps of one scalar value. -/
def dumpScalar : JScalar → List Char
  | .null => ['n', 'u', 'l', 'l']
  | .bool b => if b then ['t', 'r', 'u', 'e'] else ['f', 'a', 'l', 's', 'e']
  | .int n => intToChars n
  | .str s => escapeString s

/-- json.dumps member list with the default separators: a comma and a space
between members, a colon and a space after each key. -/
def dumpMembers : JDict → List Char
  | [] => []
  | (k, v) :: rest =>
    escapeString k ++ ':' :: ' ' :: (dumpScalar v ++
      (if rest = [] then [] else ',' :: ' ' :: dumpMembers rest))

/-- json.dumps of the object. -/
def jsonDumps (d : JDict) : List Char := '{' :: (dumpMembers d ++ ['}'])

/-- Hexadecimal digit value, both cases accepted as json.loads does. -/
def parseHexDigit (c : Char) : Option Nat :=
  if '0' ≤ c ∧ c ≤ '9' then some (c.toNat - 48)
  else if 'a' ≤ c ∧ c ≤ 'f' then some (c.toNat - 87)
  else if 'A' ≤ c ∧ c ≤ 'F' then some (c.toNat - 55)
  else none

mutual

/-- JSON string content after the opening quote: literal characters up to
the closing quote, backslash escapes, the strict rejection of raw control
characters; returns the decoded characters and the remaining input. -/
def parseStringChars : List Char → Option (List Char × List Char)
  | [] => none
  | c :: rest =>
    if c = '"' then some ([], rest)
    else if c = '\\' then parseEscape rest
    else if c.toNat < 32 then none
    else (parseStringChars rest).map fun p => (c :: p.1, p.2)

/-- One backslash escape: the named escapes and backslash u sequences. -/
def parseEscape : List Char → Option (List Char × List Char)
  | [] => none
  | e :: rest =>
    if e = '"' then (parseStringChars rest).map fun p => ('"' :: p.1, p.2)
    else if e = '\\' then
      (parseStringChars rest).map fun p => ('\\' :: p.1, p.2)
    else if e = '/' then (parseStringChars rest).map fun p => ('/' :: p.1, p.2)
    else if e = 'b' then
      (parseStringChars rest).map fun p => ('\x08' :: p.1, p.2)
    else if e = 'f' then
      (parseStringChars rest).map fun p => ('\x0c' :: p.1, p.2)
    else if e = 'n' then
      (parseStringChars rest).map fun p => ('\n' :: p.1, p.2)
    else if e = 'r' then
      (parseStringChars rest).map fun p => ('\r' :: p.1, p.2)
    else if e = 't' then
      (parseStringChars rest).map fun p => ('\t' :: p.1, p.2)
    else if e = 'u' then parseUEscape rest
    else none

/-- The four hex digits of a backslash u escape; a high surrogate demands a
following low surrogate, a lone low surrogate is rejected (Lean characters
cannot carry lone surrogates; json.loads would produce a surrogate
codepoint there). -/
def parseUEscape : List Char → Option (List Char × List Char)
  | c1 :: c2 :: c3 :: c4 :: rest =>
    match parseHexDigit c1, parseHexDigit c2, parseHexDigit c3,
        parseHexDigit c4 with
    | some d1, some d2, some d3, some d4 =>
      if 55296 ≤ d1 * 4096 + d2 * 256 + d3 * 16 + d4 ∧
          d1 * 4096 + d2 * 256 + d3 * 16 + d4 ≤ 56319 then
        parseLowSurrogate (d1 * 4096 + d2 * 256 + d3 * 16 + d4) rest
      else if 56320 ≤ d1 * 4096 + d2 * 256 + d3 * 16 + d4 ∧
          d1 * 4096 + d2 * 256 + d3 * 16 + d4 ≤ 57343 then none
      else (parseStringChars rest).map fun p =>
        (Char.ofNat (d1 * 4096 + d2 * 256 + d3 * 16 + d4) :: p.1, p.2)
    | _, _, _, _ => none
  | _ => none

/-- The second half of a surrogate pair escape. -/
def parseLowSurrogate (hi : Nat) : List Char → Option (List Char × List Char)
  | b1 :: b2 :: c1 :: c2 :: c3 :: c4 :: rest =>
    if b1 = '\\' ∧ b2 = 'u' then
      match parseHexDigit c1, parseHexDigit c2, parseHexDigit c3,
          parseHexDigit c4 with
      | some d1, some d2, some d3, some d4 =>
        if 56320 ≤ d1 * 4096 + d2 * 256 + d3 * 16 + d4 ∧
            d1 * 4096 + d2 * 256 + d3 * 16 + d4 ≤ 57343 then
          (parseStringChars rest).map fun p =>
            (Char.ofNat (65536 + (hi - 55296) * 1024 +
              (d1 * 4096 + d2 * 256 + d3 * 16 + d4 - 56320)) :: p.1, p.2)
        else none
      | _, _, _, _ => none
    else none
  | _ => none

end

/-- Longest leading run of decimal digits. -/
def takeDigits : List Char → List Char × List Char
  | [] => ([], [])
  | c :: rest =>
    if '0' ≤ c ∧ c ≤ '9' then
      let p := takeDigits rest
      (c :: p.1, p.2)
    else ([], c :: rest)

/-- Value of a digit run. -/
def digitsToNat (ds : List Char) : Nat :=
  ds.foldl (fun a c => 10 * a + (c.toNat - 48)) 0

/-- Decimal integer literal, an optional minus sign and digits.  Fractions
and exponents are outside the embedded fragment: json.dumps of the scalar
fragment never emits them. -/
def parseIntChars (s : List Char) : Option (Int × List Char) :=
  match s with
  | [] => none
  | c :: rest =>
    if c = '-' then
      let p := takeDigits rest
      if p.1 = [] then none else some (-(digitsToNat p.1 : Int), p.2)
    else
      let p := takeDigits (c :: rest)
      if p.1 = [] then none else some ((digitsToNat p.1 : Int), p.2)

/-- Completion of the null literal after its first character. -/
def parseNullTail : List Char → Option (JScalar × List Char)
  | 'u' :: 'l' :: 'l' :: r => some (.null, r)
  | _ => none

/-- Completion of the true literal after its first character. -/
def parseTrueTail : List Char → Option (JScalar × List Char)
  | 'r' :: 'u' :: 'e' :: r => some (.bool true, r)
  | _ => none

/-- Completion of the false literal after its first character. -/
def parseFalseTail : List Char → Option (JScalar × List Char)
  | 'a' :: 'l' :: 's' :: 'e' :: r => some (.bool false, r)
  | _ => none

/-- One scalar value: null, true, false, a string literal or an integer. -/
def parseScalar (s : List Char) : Option (JScalar × List Char) :=
  match s with
  | [] => none
  | c :: rest =>
    if c = 'n' then parseNullTail rest
    else if c = 't' then parseTrueTail rest
    else if c = 'f' then parseFalseTail rest
    else if c = '"' then
      (parseStringChars rest).map fun p => (.str (String.mk p.1), p.2)
    else
      (parseIntChars (c :: rest)).map fun p => (.int p.1, p.2)

/-- Members of an object in the canonical json.dumps layout: a string key,
a colon and a space, a scalar value, then either a comma and a space before
the next member or the end of the member list.  The fuel argument bounds the
recursion by the input length. -/
def parseMembers (fuel : Nat) (s : List Char) : Option (JDict × List Char) :=
  match fuel with
  | 0 => none
  | fuel + 1 =>
    match s with
    | '"' :: rest =>
      match parseStringChars rest with
      | some (kcs, r1) =>
        match r1 with
        | ':' :: ' ' :: r2 =>
          match parseScalar r2 with
          | some (v, r3) =>
            match r3 with
            | ',' :: ' ' :: r4 =>
              (parseMembers fuel r4).map fun p =>
                ((String.mk kcs, v) :: p.1, p.2)
            | _ => some ([(String.mk kcs, v)], r3)
          | none => none
        | _ => none
      | none => none
    | _ => none

/-- json.loads restricted to the canonical object layout json.dumps
produces: the whole input must be consumed. -/
def jsonLoads (s : List Char) : Option JDict :=
  match s with
  | '{' :: rest =>
    match rest with
    | '}' :: rest2 => if rest2 = [] then some [] else none
    | _ =>
      match parseMembers (rest.length + 1) rest with
      | some (d, r) => if r = ['}'] then some d else none
      | none => none
  | _ => none

/-- Hex digits round-trip below 16. -/
theorem parseHexDigit_hexDigitChar : ∀ m < 16,
    parseHexDigit (hexDigitChar m) = some m := by decide

/-- The string parser inverts json.dumps escaping: the escaped content
followed by the closing quote parses back to the characters, leaving the
remaining input. -/
theorem parseStringChars_escape (cs : List Char) (rest : List Char) :
    parseStringChars (cs.flatMap escapeChar ++ '"' :: rest) =
      some (cs, rest) := by
  induction cs with
  | nil =>
    rw [List.flatMap_nil, List.nil_append, parseStringChars, if_pos rfl]
  | cons c cs ih =>
    rw [List.flatMap_cons, List.append_assoc]
    have hv := char_toNat_valid c
    by_cases hqt : c = '"'
    · subst hqt
      have he : escapeChar '"' = ['\\', '"'] := rfl
      rw [he, List.cons_append, List.singleton_append, parseStringChars,
        if_neg (by decide), if_pos rfl, parseEscape, if_pos rfl, ih]
      rfl
    · by_cases hbsl : c = '\\'
      · subst hbsl
        have he : escapeChar '\\' = ['\\', '\\'] := rfl
        rw [he, List.cons_append, List.singleton_append, parseStringChars,
          if_neg (by decide), if_pos rfl, parseEscape, if_neg (by decide),
          if_pos rfl, ih]
        rfl
      · by_cases hb8 : c = '\x08'
        · subst hb8
          have he : escapeChar '\x08' = ['\\', 'b'] := rfl
          rw [he, List.cons_append, List.singleton_append, parseStringChars,
            if_neg (by decide), if_pos rfl, parseEscape, if_neg (by decide),
            if_neg (by decide), if_neg (by decide), if_pos rfl, ih]
          rfl
        · by_cases htb : c = '\t'
          · subst htb
            have he : escapeChar '\t' = ['\\', 't'] := rfl
            rw [he, List.cons_append, List.singleton_append,
              parseStringChars, if_neg (by decide), if_pos rfl, parseEscape,
              if_neg (by decide), if_neg (by decide), if_neg (by decide),
              if_neg (by decide), if_neg (by decide), if_neg (by decide),
              if_neg (by decide), if_pos rfl, ih]
            rfl
          · by_cases hnl : c = '\n'
            · subst hnl
              have he : escapeChar '\n' = ['\\', 'n'] := rfl
              rw [he, List.cons_append, List.singleton_append,
                parseStringChars, if_neg (by decide), if_pos rfl,
                parseEscape, if_neg (by decide), if_neg (by decide),
                if_neg (by decide), if_neg (by decide), if_neg (by decide),
                if_pos rfl, ih]
              rfl
            · by_cases hff : c = '\x0c'
              · subst hff
                have he : escapeChar '\x0c' = ['\\', 'f'] := rfl
                rw [he, List.cons_append, List.singleton_append,
                  parseStringChars, if_neg (by decide), if_pos rfl,
                  parseEscape, if_neg (by decide), if_neg (by decide),
                  if_neg (by decide), if_neg (by decide), if_pos rfl, ih]
                rfl
              · by_cases hcr : c = '\r'
                · subst hcr
                  have he : escapeChar '\r' = ['\\', 'r'] := rfl
                  rw [he, List.cons_append, List.singleton_append,
                    parseStringChars, if_neg (by decide), if_pos rfl,
                    parseEscape, if_neg (by decide), if_neg (by decide),
                    if_neg (by decide), if_neg (by decide),
                    if_neg (by decide), if_neg (by decide), if_pos rfl, ih]
                  rfl
                · by_cases hpr : 32 ≤ c.toNat ∧ c.toNat ≤ 126
                  · have he : escapeChar c = [c] := by
                      simp only [escapeChar, if_neg hqt, if_neg hbsl,
                        if_neg hb8, if_neg htb, if_neg hnl, if_neg hff,
                        if_neg hcr, if_pos hpr]
                    rw [he, List.singleton_append, parseStringChars,
                      if_neg hqt, if_neg hbsl, if_neg (by omega), ih]
                    rfl
                  · by_cases hbmp : c.toNat < 65536
                    · have he : escapeChar c = uEscape c.toNat := by
                        simp only [escapeChar, if_neg hqt, if_neg hbsl,
                          if_neg hb8, if_neg htb, if_neg hnl, if_neg hff,
                          if_neg hcr, if_neg hpr, if_pos hbmp]
                      rw [he, uEscape, List.cons_append, List.cons_append,
                        List.cons_append, List.cons_append, List.cons_append,
                        List.singleton_append, parseStringChars,
                        if_neg (by decide), if_pos rfl, parseEscape,
                        if_neg (by decide), if_neg (by decide),
                        if_neg (by decide), if_neg (by decide),
                        if_neg (by decide), if_neg (by decide),
                        if_neg (by decide), if_neg (by decide), if_pos rfl,
                        parseUEscape,
                        parseHexDigit_hexDigitChar _ (by omega),
                        parseHexDigit_hexDigitChar _ (by omega),
                        parseHexDigit_hexDigitChar _ (by omega),
                        parseHexDigit_hexDigitChar _ (by omega)]
                      have hsum : c.toNat / 4096 % 16 * 4096 +
                          c.toNat / 256 % 16 * 256 + c.toNat / 16 % 16 * 16 +
                          c.toNat % 16 = c.toNat := by omega
                      simp only [hsum]
                      rw [if_neg (by omega), if_neg (by omega), ih]
                      simp only [Option.map_some']
                      rw [Char.ofNat_toNat]
                    · have hlo : 65536 ≤ c.toNat := by omega
                      have hhi : c.toNat < 1114112 := by omega
                      have he : escapeChar c =
                          uEscape (55296 + (c.toNat - 65536) / 1024) ++
                            uEscape (56320 + (c.toNat - 65536) % 1024) := by
                        simp only [escapeChar, if_neg hqt, if_neg hbsl,
                          if_neg hb8, if_neg htb, if_neg hnl, if_neg hff,
                          if_neg hcr, if_neg hpr, if_neg hbmp]
                      rw [he, uEscape, uEscape, List.append_assoc]
                      rw [List.cons_append, List.cons_append,
                        List.cons_append, List.cons_append, List.cons_append,
                        List.singleton_append, parseStringChars,
                        if_neg (by decide), if_pos rfl, parseEscape,
                        if_neg (by decide), if_neg (by decide),
                        if_neg (by decide), if_neg (by decide),
                        if_neg (by decide), if_neg (by decide),
                        if_neg (by decide), if_neg (by decide), if_pos rfl,
                        parseUEscape,
                        parseHexDigit_hexDigitChar _ (by omega),
                        parseHexDigit_hexDigitChar _ (by omega),
                        parseHexDigit_hexDigitChar _ (by omega),
                        parseHexDigit_hexDigitChar _ (by omega)]
                      have hsum : (55296 + (c.toNat - 65536) / 1024) / 4096 %
                          16 * 4096 +
                          (55296 + (c.toNat - 65536) / 1024) / 256 % 16 *
                            256 +
                          (55296 + (c.toNat - 65536) / 1024) / 16 % 16 * 16 +
                          (55296 + (c.toNat - 65536) / 1024) % 16 =
                          55296 + (c.toNat - 65536) / 1024 := by omega
                      simp only [hsum]
                      rw [if_pos (by omega)]
                      rw [List.cons_append, List.cons_append,
                        List.cons_append, List.cons_append, List.cons_append,
                        List.singleton_append, parseLowSurrogate,
                        if_pos ⟨rfl, rfl⟩,
                        parseHexDigit_hexDigitChar _ (by omega),
                        parseHexDigit_hexDigitChar _ (by omega),
                        parseHexDigit_hexDigitChar _ (by omega),
                        parseHexDigit_hexDigitChar _ (by omega)]
                      have hsum2 : (56320 + (c.toNat - 65536) % 1024) / 4096
                          % 16 * 4096 +
                          (56320 + (c.toNat - 65536) % 1024) / 256 % 16 *
                            256 +
                          (56320 + (c.toNat - 65536) % 1024) / 16 % 16 * 16 +
                          (56320 + (c.toNat - 65536) % 1024) % 16 =
                          56320 + (c.toNat - 65536) % 1024 := by omega
                      simp only [hsum2]
                      rw [if_pos (by omega), ih]
                      simp only [Option.map_some']
                      have hchar : 65536 +
                          (55296 + (c.toNat - 65536) / 1024 - 55296) * 1024 +
                          (56320 + (c.toNat - 65536) % 1024 - 56320) =
                          c.toNat := by omega
                      rw [hchar, Char.ofNat_toNat]

/-- The list does not begin with a decimal digit, so a preceding number
literal cannot absorb it. -/
def NoDigitHead : List Char → Prop
  | [] => True
  | c :: _ => ¬('0' ≤ c ∧ c ≤ '9')

instance (s : List Char) : Decidable (NoDigitHead s) := by
  unfold NoDigitHead
  cases s <;> exact inferInstance

/-- Decimal digit characters stay in the digit range. -/
theorem digitChar_bounds (m : Nat) (h : m < 10) :
    '0' ≤ Char.ofNat (48 + m) ∧ Char.ofNat (48 + m) ≤ '9' := by
  interval_cases m <;> exact ⟨by decide, by decide⟩

/-- Code point of a decimal digit character. -/
theorem digitChar_toNat (m : Nat) (h : m < 10) :
    (Char.ofNat (48 + m)).toNat = 48 + m := by
  interval_cases m <;> decide

/-- All characters natToDigits produces are digits. -/
theorem natToDigits_digits (n : Nat) :
    ∀ c ∈ natToDigits n, '0' ≤ c ∧ c ≤ '9' := by
  induction n using natToDigits.induct with
  | case1 n h =>
    intro c hc
    rw [natToDigits, dif_pos h] at hc
    simp only [List.mem_singleton] at hc
    subst hc
    exact digitChar_bounds n h
  | case2 n h ih =>
    intro c hc
    rw [natToDigits, dif_neg h] at hc
    rcases List.mem_append.mp hc with hc | hc
    · exact ih c hc
    · simp only [List.mem_singleton] at hc
      subst hc
      exact digitChar_bounds (n % 10) (by omega)

/-- natToDigits is never empty. -/
theorem natToDigits_cons (n : Nat) : ∃ d ds, natToDigits n = d :: ds := by
  induction n using natToDigits.induct with
  | case1 n h =>
    rw [natToDigits, dif_pos h]
    exact ⟨_, [], rfl⟩
  | case2 n h ih =>
    rcases ih with ⟨d, ds, hds⟩
    rw [natToDigits, dif_neg h, hds]
    exact ⟨d, ds ++ [Char.ofNat (48 + n % 10)], rfl⟩

/-- takeDigits splits a digit run followed by a non-digit remainder. -/
theorem takeDigits_split (ds : List Char) (hds : ∀ c ∈ ds, '0' ≤ c ∧ c ≤ '9')
    (rest : List Char) (hrest : NoDigitHead rest) :
    takeDigits (ds ++ rest) = (ds, rest) := by
  induction ds with
  | nil =>
    rw [List.nil_append]
    cases rest with
    | nil => rfl
    | cons c r =>
      rw [takeDigits, if_neg hrest]
  | cons d ds ih =>
    rw [List.cons_append, takeDigits,
      if_pos (hds d (by simp)), ih fun c hc => hds c (by simp [hc])]

/-- The digit fold inverts natToDigits. -/
theorem digitsToNat_natToDigits (n : Nat) :
    digitsToNat (natToDigits n) = n := by
  induction n using natToDigits.induct with
  | case1 n h =>
    rw [natToDigits, dif_pos h]
    simp only [digitsToNat, List.foldl_cons, List.foldl_nil]
    rw [digitChar_toNat n h]
    omega
  | case2 n h ih =>
    rw [natToDigits, dif_neg h]
    simp only [digitsToNat, List.foldl_append, List.foldl_cons,
      List.foldl_nil] at ih ⊢
    rw [ih, digitChar_toNat (n % 10) (by omega)]
    omega

/-- Integer parsing inverts json.dumps integer rendering when the remainder
does not begin with a digit. -/
theorem parseIntChars_intToChars (n : Int) (rest : List Char)
    (hrest : NoDigitHead rest) :
    parseIntChars (intToChars n ++ rest) = some (n, rest) := by
  unfold intToChars
  by_cases hneg : n < 0
  · rw [if_pos hneg, List.cons_append, parseIntChars, if_pos rfl]
    rw [takeDigits_split (natToDigits n.natAbs)
      (natToDigits_digits n.natAbs) rest hrest]
    rcases natToDigits_cons n.natAbs with ⟨d, ds, hds⟩
    rw [if_neg (by rw [hds]; exact List.cons_ne_nil d ds)]
    rw [digitsToNat_natToDigits]
    have hn : -((n.natAbs : Nat) : Int) = n := by omega
    rw [hn]
  · rw [if_neg hneg]
    rcases natToDigits_cons n.toNat with ⟨d, ds, hds⟩
    have hd : '0' ≤ d ∧ d ≤ '9' :=
      natToDigits_digits n.toNat d (by rw [hds]; simp)
    rw [hds, List.cons_append, parseIntChars,
      if_neg (by intro h; rw [h] at hd; revert hd; decide),
      ← List.cons_append, ← hds]
    rw [takeDigits_split (natToDigits n.toNat)
      (natToDigits_digits n.toNat) rest hrest]
    rw [if_neg (by rw [hds]; exact List.cons_ne_nil d ds)]
    rw [digitsToNat_natToDigits]
    have hn : ((n.toNat : Nat) : Int) = n := Int.toNat_of_nonneg (by omega)
    rw [hn]

/-- One scalar value parses back from its canonical rendering when the
remainder does not begin with a digit. -/
theorem parseScalar_dump (v : JScalar) (rest : List Char)
    (hrest : NoDigitHead rest) :
    parseScalar (dumpScalar v ++ rest) = some (v, rest) := by
  cases v with
  | null => rfl
  | bool b => cases b <;> rfl
  | str s =>
    rw [dumpScalar, escapeString, List.cons_append, List.append_assoc,
      List.singleton_append, parseScalar, if_neg (by decide),
      if_neg (by decide), if_neg (by decide), if_pos rfl,
      parseStringChars_escape]
    rfl
  | int n =>
    by_cases hneg : n < 0
    · have hic : intToChars n = '-' :: natToDigits n.natAbs := by
        unfold intToChars
        rw [if_pos hneg]
      rw [dumpScalar, hic, List.cons_append, parseScalar,
        if_neg (by decide), if_neg (by decide), if_neg (by decide),
        if_neg (by decide), ← List.cons_append, ← hic,
        parseIntChars_intToChars n rest hrest]
      rfl
    · rcases natToDigits_cons n.toNat with ⟨d, ds, hds⟩
      have hdig : '0' ≤ d ∧ d ≤ '9' :=
        natToDigits_digits n.toNat d (by rw [hds]; simp)
      have hic : intToChars n = d :: ds := by
        unfold intToChars
        rw [if_neg hneg, hds]
      rw [dumpScalar, hic, List.cons_append, parseScalar,
        if_neg (fun h => by rw [h] at hdig; revert hdig; decide),
        if_neg (fun h => by rw [h] at hdig; revert hdig; decide),
        if_neg (fun h => by rw [h] at hdig; revert hdig; decide),
        if_neg (fun h => by rw [h] at hdig; revert hdig; decide),
        ← List.cons_append, ← hic, parseIntChars_intToChars n rest hrest]
      rfl

/-- The member rendering is at least as long as the member list. -/
theorem dumpMembers_length (d : JDict) : d.length ≤ (dumpMembers d).length := by
  induction d with
  | nil => simp [dumpMembers]
  | cons kv dtail ih =>
    rcases kv with ⟨k, v⟩
    rw [dumpMembers]
    by_cases hnil : dtail = []
    · subst hnil
      simp [escapeString, List.length_append]
    · rw [if_neg hnil]
      simp only [escapeString, List.length_append, List.length_cons,
        List.length_nil] at ih ⊢
      omega

/-- The member parser inverts the member rendering: a nonempty member list
rendered canonically and followed by a remainder that neither begins with a
digit nor with a comma parses back exactly, given enough fuel. -/
theorem parseMembers_dump (d : JDict) :
    d ≠ [] → ∀ rest : List Char, NoDigitHead rest →
      (∀ r, rest ≠ ',' :: r) → ∀ fuel, d.length ≤ fuel →
      parseMembers fuel (dumpMembers d ++ rest) = some (d, rest) := by
  induction d with
  | nil => exact fun hd => absurd rfl hd
  | cons kv dtail ih =>
    rcases kv with ⟨k, v⟩
    intro _ rest hrest hcomma fuel hfuel
    have hlen : dtail.length + 1 ≤ fuel := by
      simp only [List.length_cons] at hfuel
      omega
    obtain ⟨fuel, rfl⟩ : ∃ f, fuel = f + 1 := ⟨fuel - 1, by omega⟩
    by_cases hnil : dtail = []
    · subst hnil
      have hshape : dumpMembers [(k, v)] ++ rest =
          '"' :: (k.data.flatMap escapeChar ++
            ('"' :: (':' :: ' ' :: (dumpScalar v ++ rest)))) := by
        rw [dumpMembers, if_pos rfl, List.append_nil, escapeString]
        simp [List.append_assoc]
      rw [hshape]
      have hps := parseStringChars_escape k.data
        (':' :: ' ' :: (dumpScalar v ++ rest))
      have hsc := parseScalar_dump v rest hrest
      simp only [parseMembers, hps, hsc]
      split
      all_goals try rfl
      rename_i r4
      exact absurd rfl (hcomma (' ' :: r4))
    · have hshape : dumpMembers ((k, v) :: dtail) ++ rest =
          '"' :: (k.data.flatMap escapeChar ++
            ('"' :: (':' :: ' ' :: (dumpScalar v ++
              (',' :: ' ' :: (dumpMembers dtail ++ rest)))))) := by
        rw [dumpMembers, if_neg hnil, escapeString]
        simp [List.append_assoc]
      rw [hshape]
      have hps := parseStringChars_escape k.data
        (':' :: ' ' :: (dumpScalar v ++
          (',' :: ' ' :: (dumpMembers dtail ++ rest))))
      have hsc := parseScalar_dump v
        (',' :: ' ' :: (dumpMembers dtail ++ rest))
        (show ¬('0' ≤ ',' ∧ ',' ≤ '9') by decide)
      have hihs := ih hnil rest hrest hcomma fuel (by omega)
      simp only [parseMembers, hps, hsc, hihs]
      rfl

/-- json.loads inverts json.dumps on the embedded object fragment. -/
theorem jsonLoads_dumps (d : JDict) : jsonLoads (jsonDumps d) = some d := by
  cases d with
  | nil => rfl
  | cons kv dtail =>
    rcases kv with ⟨k, v⟩
    obtain ⟨y, hy⟩ : ∃ y, dumpMembers ((k, v) :: dtail) = '"' :: y := by
      rw [dumpMembers, escapeString, List.cons_append]
      exact ⟨_, rfl⟩
    have ht : dumpMembers ((k, v) :: dtail) ++ ['}'] =
        '"' :: (y ++ ['}']) := by
      rw [hy, List.cons_append]
    have hfuel : ((k, v) :: dtail).length ≤ ('"' :: (y ++ ['}'])).length + 1
        := by
      have hlen := dumpMembers_length ((k, v) :: dtail)
      rw [hy] at hlen
      simp only [List.length_append, List.length_cons, List.length_nil]
        at hlen ⊢
      omega
    have hpm := parseMembers_dump ((k, v) :: dtail) (by simp) ['}']
      (show ¬('0' ≤ '}' ∧ '}' ≤ '9') by decide)
      (fun r h => by simp at h) (('"' :: (y ++ ['}'])).length + 1) hfuel
    rw [ht] at hpm
    rw [jsonDumps, ht]
    simp only [jsonLoads, hpm]
    split
    all_goals simp_all

/-- Bytes of the UTF-8 encoding of a character list are below 256. -/
theorem utf8EncodeChars_lt (cs : List Char) :
    ∀ b ∈ utf8EncodeChars cs, b < 256 := by
  intro b hb
  rcases List.mem_flatMap.mp hb with ⟨c, _, hbc⟩
  exact utf8EncodeChar_lt c b hbc

/-- CursorPagination.encode_cursor (app/commons/pagination.py): json.dumps,
str.encode utf-8, base64.urlsafe_b64encode. -/
def encode_cursor (d : JDict) : List Char :=
  urlsafe_b64encode (utf8EncodeChars (jsonDumps d))

/-- The ValueError decode_cursor raises on a failing decode. -/
inductive CursorError where
  | valueError (msg : String)
deriving DecidableEq, Repr

/-- CursorPagination.decode_cursor: urlsafe base64 decode, UTF-8 decode,
json.loads; a failure at any stage (binascii error, UnicodeDecodeError,
JSONDecodeError, each a ValueError subclass caught by the except clause) is
raised as ValueError Invalid cursor format. -/
def decode_cursor (s : List Char) : Except CursorError JDict :=
  match urlsafe_b64decode s with
  | none => .error (.valueError "Invalid cursor format")
  | some bs =>
    match utf8DecodeChars bs with
    | none => .error (.valueError "Invalid cursor format")
    | some cs =>
      match jsonLoads cs with
      | none => .error (.valueError "Invalid cursor format")
      | some d => .ok d

/-- Cursor handling of BaseRepository.list_with_cursor: a missing cursor
passes through, a present one is decoded, and the ValueError from
decode_cursor is turned into HTTP 400 Invalid cursor format. -/
def cursor_parse_step (cursor : Option (List Char)) :
    Except HttpError (Option JDict) :=
  match cursor with
  | none => .ok none
  | some s =>
    match decode_cursor s with
    | .error _ => .error ⟨400, "Invalid cursor format"⟩
    | .ok d => .ok (some d)

/-- Claim C6: decode_cursor inverts encode_cursor on every dictionary of
the embedded fragment; every decode failure raises ValueError with detail
Invalid cursor format; and list_with_cursor maps such a failure to
HTTP 400. -/
theorem c6_cursor_roundtrip (d : JDict) (s : List Char) :
    decode_cursor (encode_cursor d) = Except.ok d ∧
    (∀ e, decode_cursor s = Except.error e →
      e = .valueError "Invalid cursor format") ∧
    (∀ e, decode_cursor s = Except.error e →
      cursor_parse_step (some s) =
        Except.error ⟨400, "Invalid cursor format"⟩) := by
  refine ⟨?_, ?_, ?_⟩
  · have h1 := urlsafe_b64_roundtrip (utf8EncodeChars (jsonDumps d))
      (utf8EncodeChars_lt _)
    have h2 := utf8_roundtrip (jsonDumps d)
    have h3 := jsonLoads_dumps d
    unfold decode_cursor encode_cursor
    rw [h1]
    simp only [h2, h3]
  · intro e he
    unfold decode_cursor at he
    split at he
    · injection he with h
      exact h.symm
    · split at he
      · injection he with h
        exact h.symm
      · split at he
        · injection he with h
          exact h.symm
        · exact absurd he (fun h => Except.noConfusion h)
  · intro e he
    unfold cursor_parse_step
    show (match decode_cursor s with
      | Except.error _ =>
        (Except.error ⟨400, "Invalid cursor format"⟩ :
          Except HttpError (Option JDict))
      | Except.ok d => Except.ok (some d)) =
        Except.error ⟨400, "Invalid cursor format"⟩
    rw [he]

/-- Witness for claim C6: the cursor dictionary with key value and string
abc decodes back to itself, and an undecodable cursor maps to HTTP 400. -/
theorem c6_cursor_roundtrip_witness :
    decode_cursor (encode_cursor [("value", JScalar.str "abc")]) =
      Except.ok [("value", JScalar.str "abc")] ∧
    cursor_parse_step (some ['%', '%', '%']) =
      Except.error ⟨400, "Invalid cursor format"⟩ :=
  ⟨(c6_cursor_roundtrip [("value", JScalar.str "abc")] ['%', '%', '%']).1,
   (c6_cursor_roundtrip [("value", JScalar.str "abc")] ['%', '%', '%']).2.2
     (.valueError "Invalid cursor format") (by rfl)⟩
